import Mathlib

/-!
Shallow embedding of `Source/WebCore/platform/graphics/android/TransferQueue.cpp`
(the bounded tile-transfer queue of the Android WebKit port), together with
theorems settling the specification claims about it.

Modelling conventions:
* Tiles and tile textures are identified by natural-number ids; a C++ pointer
  that may be null becomes `Option Nat`.
* The external tile/texture world (`Tile::backTexture`, `Tile::frontTexture`,
  `TileTexture::owner`) is a read-only environment `TileEnv` passed to the
  operations that consult it.
* GPU and destination side effects (`updateTexImage`, uploads, blits, GL
  state save/restore, `transferComplete`, `discardBackTexture`, condition
  signals) are recorded as an event trace `List Ev` returned next to the
  new queue state.
* `m_emptyItemCount` is an `int` in C++; it is modelled as `Nat` because every
  decrement in the modelled operations happens under the admission gate
  (`m_emptyItemCount` nonzero), where `Nat` subtraction agrees with `int`.
* The condition-variable wait inside `readyForUpdate` is modelled by a list of
  complete lock-holding operations (`LockedOp`) executed by other threads
  while the caller waits; the wait returns once at least one of them has
  signalled the condition (`signalsIn`).
-/

namespace TQ

/-- Status of one transfer-queue slot (`TransferItemStatus` in the source). -/
inductive SlotStatus
  | emptyItem
  | pendingBlit
  | pendingDiscard
  deriving DecidableEq, Repr

/-- Upload strategy recorded per item (`TextureUploadType` in the source). -/
inductive TextureUploadType
  | CpuUpload
  | GpuUpload
  deriving DecidableEq, Repr

/-- `IntRect`: only construction from the renderInfo inval rectangle and
emptiness matter to the modelled code paths. -/
structure IntRect where
  x : Int
  y : Int
  width : Int
  height : Int
  deriving DecidableEq, Repr

/-- One ring (or side-queue) entry, `TileTransferData` in the source.
`bitmap` records whether the lazily allocated `SkBitmap` exists. -/
structure TileTransferData where
  status : SlotStatus := .emptyItem
  uploadType : TextureUploadType := .GpuUpload
  savedTilePtr : Option Nat := none
  savedTileTexturePtr : Option Nat := none
  invalRect : IntRect := ⟨0, 0, 0, 0⟩
  bitmap : Bool := false
  pureColor : Nat := 0
  deriving DecidableEq, Repr

instance : Inhabited TileTransferData := ⟨{}⟩

/-- Read-only view of the external tile/texture world at a given moment:
`backTexture t` / `frontTexture t` are `t->backTexture()` / `t->frontTexture()`,
and `owner x` is `x->owner()` for a texture id `x`. -/
structure TileEnv where
  backTexture : Nat → Option Nat
  frontTexture : Nat → Option Nat
  owner : Nat → Option Nat

/-- The fields of `TileRenderInfo` consumed by the queue. -/
structure TileRenderInfo where
  baseTile : Nat
  invalRect : Option IntRect := none
  pureColor : Nat := 0
  deriving DecidableEq, Repr

/-- Observable actions performed by the queue on the GPU, on destination
tiles/textures, or on the condition variable. -/
inductive Ev
  | updateTexImage
  | clearSlot (i : Nat)
  | requireTexture (i : Nat)
  | bitmapUpload (i : Nat)
  | blit (i : Nat)
  | saveGLState
  | restoreGLState
  | markNotPure (tex : Nat)
  | transferComplete (tex : Nat)
  | setPureColor (tex : Nat)
  | discardBackTexture (tile : Nat)
  | signalCond
  deriving DecidableEq, Repr

/-- Queue state: the fields of class `TransferQueue` the modelled operations
read or write. -/
structure QState where
  transferQueueSize : Nat
  transferQueue : List TileTransferData
  transferQueueIndex : Nat
  emptyItemCount : Nat
  hasGLContext : Bool
  interruptedByRemovingOp : Bool
  currentUploadType : TextureUploadType
  pureColorTileQueue : List TileTransferData
  deriving DecidableEq, Repr

/-- `m_transferQueue[i]` (out-of-range reads yield a default empty slot;
the ring's length is fixed at construction). -/
def getSlot (s : QState) (i : Nat) : TileTransferData :=
  s.transferQueue.getD i default

/-- Write `m_transferQueue[i]`. -/
def setSlot (s : QState) (i : Nat) (d : TileTransferData) : QState :=
  { s with transferQueue := s.transferQueue.set i d }

/-- Modelled from the spec: `DEFAULT_UPLOAD_TYPE` is defined in the missing
header `TransferQueue.h`.  No claim depends on its value; the GPU (shared
surface) strategy, which the spec treats as the primary path, is chosen. -/
def DEFAULT_UPLOAD_TYPE : TextureUploadType := .GpuUpload

/-- The constructor `TransferQueue::TransferQueue(bool useMinimalMem)`:
ring capacity is `MINIMAL_SIZE = 1` or `EFFICIENT_SIZE = 6`. -/
def mkTransferQueue (useMinimalMem : Bool) : QState :=
  let n := if useMinimalMem then 1 else 6
  { transferQueueSize := n
    transferQueue := List.replicate n {}
    transferQueueIndex := 0
    emptyItemCount := n
    hasGLContext := true
    interruptedByRemovingOp := false
    currentUploadType := DEFAULT_UPLOAD_TYPE
    pureColorTileQueue := [] }

/-- `TransferQueue::getNextTransferQueueIndex`. -/
def getNextTransferQueueIndex (s : QState) : Nat :=
  (s.transferQueueIndex + 1) % s.transferQueueSize

/-- `TransferQueue::checkObsolete` (lines 131-147): the item is obsolete when
the saved tile pointer is null, or the tile's current back texture is null,
or that back texture differs from the saved texture pointer. -/
def checkObsolete (env : TileEnv) (data : TileTransferData) : Bool :=
  match data.savedTilePtr with
  | none => true
  | some tile =>
    match env.backTexture tile with
    | none => true
    | some bt => decide (some bt ≠ data.savedTileTexturePtr)

/-- Staleness check as worded by the spec ("a slot is stale if its destination
reference is null, or the destination's current texture reference does not
equal the slot's expected texture reference"): the two texture references are
compared as possibly-null values, with no separate null test on the
destination's current texture. -/
def checkObsoleteSpec (env : TileEnv) (data : TileTransferData) : Bool :=
  match data.savedTilePtr with
  | none => true
  | some tile => decide (env.backTexture tile ≠ data.savedTileTexturePtr)

/-- A fixed environment in which tile 0 currently has no back texture. -/
def envNoBack : TileEnv :=
  { backTexture := fun _ => none
    frontTexture := fun _ => none
    owner := fun _ => none }

/-- `TransferQueue::addItemCommon` (lines 494-511): populate a transfer entry
from the render info.  The expected texture is the tile's current back texture;
the inval rectangle defaults to the empty `(0,0,0,0)` when absent. -/
def addItemCommon (env : TileEnv) (renderInfo : TileRenderInfo)
    (type : TextureUploadType) (data : TileTransferData) : TileTransferData :=
  { data with
    savedTileTexturePtr := env.backTexture renderInfo.baseTile
    savedTilePtr := some renderInfo.baseTile
    status := .pendingBlit
    uploadType := type
    invalRect := renderInfo.invalRect.getD ⟨0, 0, 0, 0⟩ }

/-- `TransferQueue::addItemInTransferQueue` (lines 515-541): advance the write
index, populate the slot there, lazily materialize the bitmap copy for
`CpuUpload`, and decrement the empty-slot count. -/
def addItemInTransferQueue (env : TileEnv) (renderInfo : TileRenderInfo)
    (type : TextureUploadType) (s : QState) : QState :=
  let index := (s.transferQueueIndex + 1) % s.transferQueueSize
  let d := addItemCommon env renderInfo type (getSlot s index)
  let d := if type = .CpuUpload then { d with bitmap := true } else d
  { setSlot s index d with
    transferQueueIndex := index
    emptyItemCount := s.emptyItemCount - 1 }

/-- `TransferQueue::addItemInPureColorQueue` (lines 481-490): append a freshly
populated uniform-color entry to the side queue. -/
def addItemInPureColorQueue (env : TileEnv) (renderInfo : TileRenderInfo)
    (s : QState) : QState :=
  let data := addItemCommon env renderInfo .GpuUpload {}
  let data := { data with pureColor := renderInfo.pureColor }
  { s with pureColorTileQueue := s.pureColorTileQueue ++ [data] }

/-- `TransferQueue::setPendingDiscard` (lines 310-326): flip every
`pendingBlit` slot to `pendingDiscard`, clear the side queue, drop the GL
context flag, and signal the condition once iff a context existed. -/
def setPendingDiscard (s : QState) : QState × List Ev :=
  let ring := s.transferQueue.map fun d =>
    if d.status = .pendingBlit then { d with status := .pendingDiscard } else d
  let glContextExisted := s.hasGLContext
  ({ s with transferQueue := ring, pureColorTileQueue := [], hasGLContext := false },
   if glContextExisted then [.signalCond] else [])

/-- `TransferQueue::setTextureUploadType` (lines 543-553): a no-op when the
type is unchanged, otherwise `setPendingDiscard` followed by adopting the new
default type. -/
def setTextureUploadType (t : TextureUploadType) (s : QState) : QState × List Ev :=
  if s.currentUploadType = t then (s, [])
  else
    let r := setPendingDiscard s
    ({ r.1 with currentUploadType := t }, r.2)

/-- The `updateTexImage` events of processing one entry: the shared surface's
read pointer is advanced exactly when the entry used `GpuUpload`. -/
def uteEvs (d : TileTransferData) : List Ev :=
  if d.uploadType = .GpuUpload then [.updateTexImage] else []

/-- The destination-discard events in `cleanupPendingDiscard` (lines 574-581):
the tile's back texture is discarded only when the saved texture is non-null
and still owned by the (non-null) saved tile. -/
def discardEvs (env : TileEnv) (d : TileTransferData) : List Ev :=
  match d.savedTilePtr, d.savedTileTexturePtr with
  | some tile, some texture =>
      if env.owner texture = some tile then [.discardBackTexture tile] else []
  | _, _ => []

/-- The slot written back by `cleanupPendingDiscard` (lines 583-585): tile
pointer, texture pointer and status all cleared. -/
def discardedSlot (d : TileTransferData) : TileTransferData :=
  { d with savedTilePtr := none, savedTileTexturePtr := none, status := .emptyItem }

/-- Body of the `cleanupPendingDiscard` loop for one index (lines 562-586):
for a `pendingDiscard` slot, advance the shared surface (`updateTexImage`)
when the entry used `GpuUpload`, discard the destination's back texture when
the saved texture is still owned by the saved tile, and clear the slot. -/
def cleanupStep (env : TileEnv) (s : QState) (index : Nat) : QState × List Ev :=
  if (getSlot s index).status = .pendingDiscard then
    (setSlot s index (discardedSlot (getSlot s index)),
     uteEvs (getSlot s index) ++ discardEvs env (getSlot s index) ++ [.clearSlot index])
  else (s, [])

/-- The `for` loop of `cleanupPendingDiscard` (lines 561-588): `k` remaining
iterations, current `index`, ring capacity `n`. -/
def cleanupLoop (env : TileEnv) (n : Nat) : Nat → Nat → QState → QState × List Ev
  | 0, _, s => (s, [])
  | k + 1, index, s =>
      let r1 := cleanupStep env s index
      let r2 := cleanupLoop env n k ((index + 1) % n) r1.1
      (r2.1, r1.2 ++ r2.2)

/-- `TransferQueue::cleanupPendingDiscard` (lines 557-589). -/
def cleanupPendingDiscard (env : TileEnv) (s : QState) : QState × List Ev :=
  cleanupLoop env s.transferQueueSize s.transferQueueSize (getNextTransferQueueIndex s) s

/-- Processing of one side-queue entry in `updatePureColorTiles`
(lines 330-344): a valid `pendingBlit` entry writes the pure color into the
destination's back texture and marks the transfer complete. -/
def pureColorStep (env : TileEnv) (d : TileTransferData) : List Ev :=
  if d.status = .pendingBlit then
    if checkObsolete env d then []
    else
      match d.savedTilePtr.bind env.backTexture with
      | some tex => [.setPureColor tex, .transferComplete tex]
      | none => []
  else []

/-- `TransferQueue::updatePureColorTiles` (lines 328-346): process every side
entry in order, then clear the side queue regardless of per-entry outcome. -/
def updatePureColorTiles (env : TileEnv) (s : QState) : QState × List Ev :=
  ({ s with pureColorTileQueue := [] },
   (s.pureColorTileQueue.map (pureColorStep env)).flatten)

/-- The slot written back by the ring walk (lines 384-385): only the saved
tile pointer and the status are cleared; the saved texture pointer remains. -/
def clearedSlot (d : TileTransferData) : TileTransferData :=
  { d with savedTilePtr := none, status := .emptyItem }

/-- The GPU-write events of a live (non-stale) ring entry (lines 393-412):
require the destination texture, then bitmap upload (`CpuUpload`) or blit
(`GpuUpload`, preceded by a GL state save if this is the cycle's first blit),
then mark the destination non-pure and transfer-complete. -/
def cpuUploadEvs (index : Nat) (tex : Nat) : List Ev :=
  [.requireTexture index, .bitmapUpload index, .markNotPure tex, .transferComplete tex]

/-- GPU-write events of the blit path for one live ring entry. -/
def gpuUploadEvs (index : Nat) (tex : Nat) (usedFbo : Bool) : List Ev :=
  [.requireTexture index] ++ (if usedFbo then [] else [.saveGLState]) ++
    [.blit index, .markNotPure tex, .transferComplete tex]

/-- One iteration of the ring walk in `updateDirtyTiles` (lines 366-418):
for a `pendingBlit` slot — run the staleness check, advance the shared surface
for `GpuUpload` entries (stale or not), clear the slot, then for a live entry
require the destination texture and perform the bitmap upload (`CpuUpload`) or
the blit (`GpuUpload`, saving GL state before the first blit of the cycle),
and mark the destination non-pure and transfer-complete. -/
def processSlot (env : TileEnv) (s : QState) (index : Nat) (usedFbo : Bool) :
    QState × Bool × List Ev :=
  if (getSlot s index).status = .pendingBlit then
    if checkObsolete env (getSlot s index) then
      (setSlot s index (clearedSlot (getSlot s index)), usedFbo,
       uteEvs (getSlot s index) ++ [.clearSlot index])
    else
      match (getSlot s index).savedTilePtr.bind env.backTexture with
      | some tex =>
          if (getSlot s index).uploadType = .CpuUpload then
            (setSlot s index (clearedSlot (getSlot s index)), usedFbo,
             uteEvs (getSlot s index) ++ [.clearSlot index] ++ cpuUploadEvs index tex)
          else
            (setSlot s index (clearedSlot (getSlot s index)), true,
             uteEvs (getSlot s index) ++ [.clearSlot index] ++
               gpuUploadEvs index tex usedFbo)
      | none =>
          (setSlot s index (clearedSlot (getSlot s index)), usedFbo,
           uteEvs (getSlot s index) ++ [.clearSlot index])
  else (s, usedFbo, [])

/-- The `for` loop of the ring walk (lines 365-420). -/
def walkLoop (env : TileEnv) (n : Nat) :
    Nat → Nat → Bool → QState → QState × Bool × List Ev
  | 0, _, usedFbo, s => (s, usedFbo, [])
  | k + 1, index, usedFbo, s =>
      let r1 := processSlot env s index usedFbo
      let r2 := walkLoop env n k ((index + 1) % n) r1.2.1 r1.1
      (r2.1, r2.2.1, r1.2.2 ++ r2.2.2)

/-- `TransferQueue::updateDirtyTiles` (lines 349-433): resolve pending
discards, re-mark the context live, drain the side queue, walk the ring once
starting at the oldest index, restore GL state if a blit occurred, reset the
empty-slot count to the capacity, and signal the condition. -/
def updateDirtyTiles (env : TileEnv) (s : QState) : QState × List Ev :=
  let r1 := cleanupPendingDiscard env s
  let s1 := { r1.1 with hasGLContext := true }
  let r2 := updatePureColorTiles env s1
  let s2 := r2.1
  let nextItemIndex := getNextTransferQueueIndex s2
  let r3 := walkLoop env s2.transferQueueSize s2.transferQueueSize nextItemIndex false s2
  let fboEvs : List Ev := if r3.2.1 then [.restoreGLState] else []
  ({ r3.1 with emptyItemCount := r3.1.transferQueueSize },
   r1.2 ++ r2.2 ++ r3.2.2 ++ fboEvs ++ [.signalCond])

/-- A complete lock-holding operation that another thread can run while a
producer is blocked inside `readyForUpdate`'s condition wait.  `fastEnqueue`
is a producer finishing `tryUpdateQueueWithBitmap` without waiting (its
admission test passes immediately); `anw` and `writeOk` are the oracles for
the native-window handle and the shared-surface pixel write. -/
inductive LockedOp
  | drainOp (env : TileEnv)
  | discardAllOp
  | interruptOp (flag : Bool)
  | fastEnqueue (env : TileEnv) (renderInfo : TileRenderInfo) (anw writeOk : Bool)
  | switchOp (t : TextureUploadType)

/-- State transformation of one `LockedOp`. -/
def applyLockedOp (s : QState) : LockedOp → QState
  | .drainOp env => (updateDirtyTiles env s).1
  | .discardAllOp => (setPendingDiscard s).1
  | .interruptOp flag => { s with interruptedByRemovingOp := flag }
  | .fastEnqueue env renderInfo anw writeOk =>
      if s.hasGLContext ∧ s.emptyItemCount ≠ 0 ∧
         (s.currentUploadType = .GpuUpload → anw ∧ writeOk) then
        addItemInTransferQueue env renderInfo s.currentUploadType s
      else s
  | .switchOp t => (setTextureUploadType t s).1

/-- Whether running the operation from state `s` signals the queue's condition
variable (`m_transferQueueItemCond`). -/
def opSignals (s : QState) : LockedOp → Bool
  | .drainOp _ => true
  | .discardAllOp => s.hasGLContext
  | .interruptOp flag => flag
  | .fastEnqueue _ _ _ _ => false
  | .switchOp t => decide (s.currentUploadType ≠ t) && s.hasGLContext

/-- Run a sequence of lock-holding operations. -/
def applyLockedOps (s : QState) : List LockedOp → QState
  | [] => s
  | op :: rest => applyLockedOps (applyLockedOp s op) rest

/-- At least one operation of the sequence signals the condition at the moment
it runs — the condition for the modelled wait to return. -/
def signalsIn (s : QState) : List LockedOp → Bool
  | [] => false
  | op :: rest => opSignals s op || signalsIn (applyLockedOp s op) rest

/-- `TransferQueue::readyForUpdate` (lines 244-278).  The condition wait is
modelled by `wake`: the operations other threads complete before the caller
reacquires the lock (meaningful runs satisfy `signalsIn s wake = true`).
Returns the readiness flag and the state the caller observes on return. -/
def readyForUpdate (s : QState) (wake : List LockedOp) : Bool × QState :=
  if ¬s.hasGLContext then (false, s)
  else if s.emptyItemCount = 0 then
    if s.interruptedByRemovingOp then (false, s)
    else
      let s' := applyLockedOps s wake
      if s'.interruptedByRemovingOp then (false, s')
      else if ¬s'.hasGLContext then (false, s')
      else (true, s')
  else (true, s)

/-- `TransferQueue::tryUpdateQueueWithBitmap` (lines 447-479): admission via
`readyForUpdate`, then for `GpuUpload` the native-window check and the shared
surface pixel write (oracles `anw`, `writeOk`), then the enqueue.  Returns the
success flag and the resulting state. -/
def tryUpdateQueueWithBitmap (s : QState) (wake : List LockedOp)
    (renderInfo : TileRenderInfo) (env : TileEnv) (anw writeOk : Bool) :
    Bool × QState :=
  let r := readyForUpdate s wake
  let s1 := r.2
  let currentUploadType := s1.currentUploadType
  if ¬r.1 then (false, s1)
  else if currentUploadType = .GpuUpload ∧ ¬anw then (false, s1)
  else if currentUploadType = .GpuUpload ∧ ¬writeOk then (false, s1)
  else (true, addItemInTransferQueue env renderInfo currentUploadType s1)

/-- Right fold over an explicit list of ring indices, processing each with
`cleanupStep`: the normal form of `cleanupLoop`. -/
def cleanupFold (env : TileEnv) : List Nat → QState → QState × List Ev
  | [], s => (s, [])
  | i :: rest, s =>
      let r1 := cleanupStep env s i
      let r2 := cleanupFold env rest r1.1
      (r2.1, r1.2 ++ r2.2)

/-- Right fold over an explicit list of ring indices, processing each with
`processSlot`: the normal form of `walkLoop`. -/
def processFold (env : TileEnv) : List Nat → Bool → QState → QState × Bool × List Ev
  | [], fbo, s => (s, fbo, [])
  | i :: rest, fbo, s =>
      let r1 := processSlot env s i fbo
      let r2 := processFold env rest r1.2.1 r1.1
      (r2.1, r2.2.1, r1.2.2 ++ r2.2.2)

/-- The sequence of ring indices visited by a `k`-iteration loop that starts
at `start` and steps by `+1 mod n`. -/
def walkIndexList (n start k : Nat) : List Nat :=
  (List.range k).map fun j => (start + j) % n

/-- The index sequence of one full ring pass in arrival order: exactly `n`
indices starting at the oldest unprocessed one (write index + 1 mod `n`). -/
def drainSpecIdxs (s : QState) : List Nat :=
  walkIndexList s.transferQueueSize (getNextTransferQueueIndex s) s.transferQueueSize

/-- The state the spec's drain sees at the start of its ring walk. -/
def drainSpecMid (env : TileEnv) (s : QState) : QState :=
  { (cleanupFold env (drainSpecIdxs s) s).1 with
    hasGLContext := true, pureColorTileQueue := [] }

/-- `updateDirtyTiles` as the spec words it: resolve pending discards over one
full ring pass from the oldest unprocessed index, re-mark the context live,
drain the side queue in order, walk the ring for exactly `n` iterations
starting at the oldest unprocessed index (write index + 1 mod `n`), restore
GL state once if a blit occurred, reset the count and signal. -/
def drainSpec (env : TileEnv) (s : QState) : QState × List Ev :=
  ({ (processFold env (drainSpecIdxs s) false (drainSpecMid env s)).1 with
      emptyItemCount := s.transferQueueSize },
   (cleanupFold env (drainSpecIdxs s) s).2 ++
     ((cleanupFold env (drainSpecIdxs s) s).1.pureColorTileQueue.map
       (pureColorStep env)).flatten ++
     (processFold env (drainSpecIdxs s) false (drainSpecMid env s)).2.2 ++
     (if (processFold env (drainSpecIdxs s) false (drainSpecMid env s)).2.1 then
       [Ev.restoreGLState] else []) ++
     [Ev.signalCond])

end TQ

namespace TQ

/-! ### Basic slot-access lemmas -/

theorem getSlot_setSlot_self (s : QState) (i : Nat) (d : TileTransferData)
    (h : i < s.transferQueue.length) : getSlot (setSlot s i d) i = d := by
  show (s.transferQueue.set i d).getD i default = d
  rw [List.getD_eq_getElem?_getD, List.getElem?_set_self (by simpa using h)]
  rfl

theorem getSlot_setSlot_ne (s : QState) (i j : Nat) (d : TileTransferData)
    (h : j ≠ i) : getSlot (setSlot s i d) j = getSlot s j := by
  show (s.transferQueue.set i d).getD j default = s.transferQueue.getD j default
  rw [List.getD_eq_getElem?_getD, List.getD_eq_getElem?_getD,
    List.getElem?_set_ne (by omega)]

theorem getSlot_map (s : QState) (f : TileTransferData → TileTransferData)
    (hf : f default = default) (j : Nat) :
    getSlot { s with transferQueue := s.transferQueue.map f } j = f (getSlot s j) := by
  show (s.transferQueue.map f).getD j default = f (s.transferQueue.getD j default)
  by_cases h : j < s.transferQueue.length
  · rw [List.getD_eq_getElem?_getD, List.getD_eq_getElem?_getD, List.getElem?_map,
      List.getElem?_eq_getElem h]
    rfl
  · rw [List.getD_eq_getElem?_getD, List.getD_eq_getElem?_getD,
      List.getElem?_eq_none (by simpa using Nat.le_of_not_lt h),
      List.getElem?_eq_none (by omega)]
    simpa using hf.symm

/-- `cleanupStep` either leaves the state alone or writes the discarded slot
back at the processed index. -/
theorem cleanupStep_state_cases (env : TileEnv) (s : QState) (i : Nat) :
    (cleanupStep env s i).1 = s ∨
    (cleanupStep env s i).1 = setSlot s i (discardedSlot (getSlot s i)) := by
  unfold cleanupStep
  split
  · right; rfl
  · left; rfl

/-- `processSlot` either leaves the state alone or writes the cleared slot
back at the processed index. -/
theorem processSlot_state_cases (env : TileEnv) (s : QState) (i : Nat) (fbo : Bool) :
    (processSlot env s i fbo).1 = s ∨
    (processSlot env s i fbo).1 = setSlot s i (clearedSlot (getSlot s i)) := by
  unfold processSlot
  split
  · split
    · right; rfl
    · split
      · split
        · right; rfl
        · right; rfl
      · right; rfl
  · left; rfl

theorem setSlot_frame (s : QState) (i : Nat) (d : TileTransferData) :
    (setSlot s i d).transferQueueSize = s.transferQueueSize ∧
    (setSlot s i d).transferQueueIndex = s.transferQueueIndex ∧
    (setSlot s i d).emptyItemCount = s.emptyItemCount ∧
    (setSlot s i d).hasGLContext = s.hasGLContext ∧
    (setSlot s i d).interruptedByRemovingOp = s.interruptedByRemovingOp ∧
    (setSlot s i d).currentUploadType = s.currentUploadType ∧
    (setSlot s i d).pureColorTileQueue = s.pureColorTileQueue ∧
    (setSlot s i d).transferQueue.length = s.transferQueue.length :=
  ⟨rfl, rfl, rfl, rfl, rfl, rfl, rfl, List.length_set ..⟩

/-- Fields of `cleanupStep`'s result other than the ring are those of `s`,
and the ring keeps its length. -/
theorem cleanupStep_frame (env : TileEnv) (s : QState) (i : Nat) :
    (cleanupStep env s i).1.transferQueueSize = s.transferQueueSize ∧
    (cleanupStep env s i).1.transferQueueIndex = s.transferQueueIndex ∧
    (cleanupStep env s i).1.emptyItemCount = s.emptyItemCount ∧
    (cleanupStep env s i).1.hasGLContext = s.hasGLContext ∧
    (cleanupStep env s i).1.interruptedByRemovingOp = s.interruptedByRemovingOp ∧
    (cleanupStep env s i).1.currentUploadType = s.currentUploadType ∧
    (cleanupStep env s i).1.pureColorTileQueue = s.pureColorTileQueue ∧
    (cleanupStep env s i).1.transferQueue.length = s.transferQueue.length := by
  rcases cleanupStep_state_cases env s i with h | h <;> rw [h]
  · exact ⟨rfl, rfl, rfl, rfl, rfl, rfl, rfl, rfl⟩
  · exact setSlot_frame ..

theorem processSlot_frame (env : TileEnv) (s : QState) (i : Nat) (fbo : Bool) :
    (processSlot env s i fbo).1.transferQueueSize = s.transferQueueSize ∧
    (processSlot env s i fbo).1.transferQueueIndex = s.transferQueueIndex ∧
    (processSlot env s i fbo).1.emptyItemCount = s.emptyItemCount ∧
    (processSlot env s i fbo).1.hasGLContext = s.hasGLContext ∧
    (processSlot env s i fbo).1.interruptedByRemovingOp = s.interruptedByRemovingOp ∧
    (processSlot env s i fbo).1.currentUploadType = s.currentUploadType ∧
    (processSlot env s i fbo).1.pureColorTileQueue = s.pureColorTileQueue ∧
    (processSlot env s i fbo).1.transferQueue.length = s.transferQueue.length := by
  rcases processSlot_state_cases env s i fbo with h | h <;> rw [h]
  · exact ⟨rfl, rfl, rfl, rfl, rfl, rfl, rfl, rfl⟩
  · exact setSlot_frame ..

theorem cleanupFold_frame (env : TileEnv) (idxs : List Nat) (s : QState) :
    (cleanupFold env idxs s).1.transferQueueSize = s.transferQueueSize ∧
    (cleanupFold env idxs s).1.transferQueueIndex = s.transferQueueIndex ∧
    (cleanupFold env idxs s).1.emptyItemCount = s.emptyItemCount ∧
    (cleanupFold env idxs s).1.hasGLContext = s.hasGLContext ∧
    (cleanupFold env idxs s).1.pureColorTileQueue = s.pureColorTileQueue ∧
    (cleanupFold env idxs s).1.transferQueue.length = s.transferQueue.length := by
  induction idxs generalizing s with
  | nil => exact ⟨rfl, rfl, rfl, rfl, rfl, rfl⟩
  | cons i rest ih =>
    have h1 := cleanupStep_frame env s i
    have h2 := ih (cleanupStep env s i).1
    simp only [cleanupFold]
    exact ⟨h2.1.trans h1.1, h2.2.1.trans h1.2.1, h2.2.2.1.trans h1.2.2.1,
      h2.2.2.2.1.trans h1.2.2.2.1, h2.2.2.2.2.1.trans h1.2.2.2.2.2.2.1,
      h2.2.2.2.2.2.trans h1.2.2.2.2.2.2.2⟩

theorem processFold_frame (env : TileEnv) (idxs : List Nat) (fbo : Bool) (s : QState) :
    (processFold env idxs fbo s).1.transferQueueSize = s.transferQueueSize ∧
    (processFold env idxs fbo s).1.transferQueueIndex = s.transferQueueIndex ∧
    (processFold env idxs fbo s).1.hasGLContext = s.hasGLContext ∧
    (processFold env idxs fbo s).1.pureColorTileQueue = s.pureColorTileQueue ∧
    (processFold env idxs fbo s).1.transferQueue.length = s.transferQueue.length := by
  induction idxs generalizing fbo s with
  | nil => exact ⟨rfl, rfl, rfl, rfl, rfl⟩
  | cons i rest ih =>
    have h1 := processSlot_frame env s i fbo
    have h2 := ih (processSlot env s i fbo).2.1 (processSlot env s i fbo).1
    simp only [processFold]
    exact ⟨h2.1.trans h1.1, h2.2.1.trans h1.2.1, h2.2.2.1.trans h1.2.2.2.1,
      h2.2.2.2.1.trans h1.2.2.2.2.2.2.1, h2.2.2.2.2.trans h1.2.2.2.2.2.2.2⟩

/-! ### Loop normal forms -/

theorem cleanupLoop_eq_fold (env : TileEnv) (n : Nat) :
    ∀ (k index : Nat) (s : QState), index < n →
      cleanupLoop env n k index s = cleanupFold env (walkIndexList n index k) s := by
  intro k
  induction k with
  | zero => intro index s _; rfl
  | succ k ih =>
    intro index s hidx
    have hn : 0 < n := Nat.lt_of_le_of_lt (Nat.zero_le _) hidx
    have hlist : walkIndexList n index (k + 1) =
        index :: walkIndexList n ((index + 1) % n) k := by
      unfold walkIndexList
      rw [List.range_succ_eq_map, List.map_cons, List.map_map]
      congr 1
      · simpa using Nat.mod_eq_of_lt hidx
      · apply List.map_congr_left
        intro j _
        show (index + Nat.succ j) % n = ((index + 1) % n + j) % n
        rw [Nat.mod_add_mod]
        congr 1
        omega
    rw [hlist]
    simp only [cleanupLoop, cleanupFold]
    rw [ih ((index + 1) % n) (cleanupStep env s index).1 (Nat.mod_lt _ hn)]

theorem walkLoop_eq_fold (env : TileEnv) (n : Nat) :
    ∀ (k index : Nat) (fbo : Bool) (s : QState), index < n →
      walkLoop env n k index fbo s = processFold env (walkIndexList n index k) fbo s := by
  intro k
  induction k with
  | zero => intro index s _ _; rfl
  | succ k ih =>
    intro index fbo s hidx
    have hn : 0 < n := Nat.lt_of_le_of_lt (Nat.zero_le _) hidx
    have hlist : walkIndexList n index (k + 1) =
        index :: walkIndexList n ((index + 1) % n) k := by
      unfold walkIndexList
      rw [List.range_succ_eq_map, List.map_cons, List.map_map]
      congr 1
      · simpa using Nat.mod_eq_of_lt hidx
      · apply List.map_congr_left
        intro j _
        show (index + Nat.succ j) % n = ((index + 1) % n + j) % n
        rw [Nat.mod_add_mod]
        congr 1
        omega
    rw [hlist]
    simp only [walkLoop, processFold]
    rw [ih ((index + 1) % n) (processSlot env s index fbo).2.1
      (processSlot env s index fbo).1 (Nat.mod_lt _ hn)]

/-! ### The visited index sequence -/

theorem walkIndexList_length (n start k : Nat) : (walkIndexList n start k).length = k := by
  simp [walkIndexList]

theorem mem_walkIndexList (n start k : Nat) (i : Nat) :
    i ∈ walkIndexList n start k ↔ ∃ j, j < k ∧ i = (start + j) % n := by
  simp only [walkIndexList, List.mem_map, List.mem_range]
  constructor
  · rintro ⟨j, hj, rfl⟩; exact ⟨j, hj, rfl⟩
  · rintro ⟨j, hj, rfl⟩; exact ⟨j, hj, rfl⟩

theorem walkIndexList_nodup (n start k : Nat) (hk : k ≤ n) :
    (walkIndexList n start k).Nodup := by
  unfold walkIndexList
  rcases Nat.eq_zero_or_pos n with hn | hn
  · have hk0 : k = 0 := by omega
    subst hk0
    simp
  apply List.Nodup.map_on ?_ (List.nodup_range k)
  intro j1 h1 j2 h2 heq
  rw [List.mem_range] at h1 h2
  have e1 : (start + j1) % n = (start % n + j1 % n) % n := by rw [Nat.add_mod]
  have e2 : (start + j2) % n = (start % n + j2 % n) % n := by rw [Nat.add_mod]
  have hmod : j1 % n = j1 := Nat.mod_eq_of_lt (by omega)
  have hmod2 : j2 % n = j2 := Nat.mod_eq_of_lt (by omega)
  have : j1 % n = j2 % n := by
    have := Nat.ModEq.add_left_cancel' start (heq : (start + j1) % n = (start + j2) % n)
    exact this
  omega

theorem mem_walkIndexList_full (n start : Nat) (hn : 0 < n) (hs : start < n) (i : Nat) :
    i ∈ walkIndexList n start n ↔ i < n := by
  rw [mem_walkIndexList]
  constructor
  · rintro ⟨j, _, rfl⟩
    exact Nat.mod_lt _ hn
  · intro hi
    refine ⟨(i + n - start) % n, Nat.mod_lt _ hn, ?_⟩
    rw [Nat.add_comm start, Nat.mod_add_mod, Nat.add_comm _ start]
    have : start + (i + n - start) = i + n := by omega
    rw [this, Nat.add_mod_right, Nat.mod_eq_of_lt hi]

theorem walkIndexList_perm_range (n start : Nat) (hn : 0 < n) (hs : start < n) :
    (walkIndexList n start n).Perm (List.range n) := by
  rw [List.perm_ext_iff_of_nodup (walkIndexList_nodup n start n (Nat.le_refl n))
    (List.nodup_range n)]
  intro i
  rw [mem_walkIndexList_full n start hn hs, List.mem_range]

/-! ### Slot-content evolution through the loops -/

theorem getSlot_eq_of_ring_eq {s1 s2 : QState} (h : s1.transferQueue = s2.transferQueue)
    (j : Nat) : getSlot s1 j = getSlot s2 j := by
  unfold getSlot
  rw [h]

theorem getSlot_oob (s : QState) (i : Nat) (h : s.transferQueue.length ≤ i) :
    getSlot s i = default := by
  show s.transferQueue.getD i default = default
  rw [List.getD_eq_getElem?_getD, List.getElem?_eq_none h]
  rfl

theorem getSlot_cleanupStep_ne (env : TileEnv) (s : QState) (i j : Nat) (h : j ≠ i) :
    getSlot (cleanupStep env s i).1 j = getSlot s j := by
  rcases cleanupStep_state_cases env s i with hc | hc <;> rw [hc]
  exact getSlot_setSlot_ne s i j _ h

theorem getSlot_processSlot_ne (env : TileEnv) (s : QState) (i j : Nat) (fbo : Bool)
    (h : j ≠ i) : getSlot (processSlot env s i fbo).1 j = getSlot s j := by
  rcases processSlot_state_cases env s i fbo with hc | hc <;> rw [hc]
  exact getSlot_setSlot_ne s i j _ h

theorem cleanupStep_post_self (env : TileEnv) (s : QState) (i : Nat) :
    (getSlot (cleanupStep env s i).1 i).status ≠ .pendingDiscard := by
  unfold cleanupStep
  split
  · by_cases hlen : i < s.transferQueue.length
    · rw [getSlot_setSlot_self s i _ hlen]
      simp [discardedSlot]
    · have : getSlot (setSlot s i (discardedSlot (getSlot s i))) i = getSlot s i := by
        apply getSlot_eq_of_ring_eq
        show s.transferQueue.set i _ = s.transferQueue
        exact List.set_eq_of_length_le (by omega)
      rw [this, getSlot_oob s i (by omega)]
      simp
  · next h => simpa using h

theorem cleanupStep_keeps_no_discard (env : TileEnv) (s : QState) (i j : Nat)
    (h : (getSlot s j).status ≠ .pendingDiscard) :
    (getSlot (cleanupStep env s i).1 j).status ≠ .pendingDiscard := by
  by_cases hij : j = i
  · subst hij
    exact cleanupStep_post_self env s j
  · rw [getSlot_cleanupStep_ne env s i j hij]
    exact h

theorem cleanupFold_no_discard (env : TileEnv) (idxs : List Nat) (s : QState) (j : Nat)
    (hj : j ∈ idxs ∨ (getSlot s j).status ≠ .pendingDiscard) :
    (getSlot (cleanupFold env idxs s).1 j).status ≠ .pendingDiscard := by
  induction idxs generalizing s with
  | nil =>
    rcases hj with h | h
    · simp at h
    · exact h
  | cons i rest ih =>
    simp only [cleanupFold]
    by_cases hr : j ∈ rest
    · exact ih (cleanupStep env s i).1 (Or.inl hr)
    · refine ih (cleanupStep env s i).1 (Or.inr ?_)
      rcases hj with h | h
      · rcases List.mem_cons.mp h with rfl | h2
        · exact cleanupStep_post_self env s j
        · exact absurd h2 hr
      · exact cleanupStep_keeps_no_discard env s i j h

theorem processSlot_post_self (env : TileEnv) (s : QState) (i : Nat) (fbo : Bool) :
    (getSlot (processSlot env s i fbo).1 i).status ≠ .pendingBlit := by
  by_cases h : (getSlot s i).status = .pendingBlit
  · have hset : (processSlot env s i fbo).1 = setSlot s i (clearedSlot (getSlot s i)) := by
      unfold processSlot
      rw [if_pos h]
      split
      · rfl
      · split
        · split
          · rfl
          · rfl
        · rfl
    rw [hset]
    by_cases hlen : i < s.transferQueue.length
    · rw [getSlot_setSlot_self s i _ hlen]
      simp [clearedSlot]
    · have : getSlot (setSlot s i (clearedSlot (getSlot s i))) i = getSlot s i := by
        apply getSlot_eq_of_ring_eq
        show s.transferQueue.set i _ = s.transferQueue
        exact List.set_eq_of_length_le (by omega)
      rw [this, getSlot_oob s i (by omega)]
      simp
  · have hid : (processSlot env s i fbo).1 = s := by
      unfold processSlot
      rw [if_neg h]
    rw [hid]
    exact h

theorem processSlot_keeps_status (env : TileEnv) (s : QState) (i j : Nat) (fbo : Bool)
    (st : SlotStatus) (hst : st ≠ .emptyItem)
    (h : (getSlot s j).status ≠ st) :
    (getSlot (processSlot env s i fbo).1 j).status ≠ st := by
  by_cases hij : j = i
  · subst hij
    rcases processSlot_state_cases env s j fbo with hc | hc <;> rw [hc]
    · exact h
    · by_cases hlen : j < s.transferQueue.length
      · rw [getSlot_setSlot_self s j _ hlen]
        simpa [clearedSlot] using fun he => absurd he.symm hst
      · have : getSlot (setSlot s j (clearedSlot (getSlot s j))) j = getSlot s j := by
          apply getSlot_eq_of_ring_eq
          show s.transferQueue.set j _ = s.transferQueue
          exact List.set_eq_of_length_le (by omega)
        rw [this]
        exact h
  · rw [getSlot_processSlot_ne env s i j fbo hij]
    exact h

theorem processFold_no_blit (env : TileEnv) (idxs : List Nat) (fbo : Bool) (s : QState)
    (j : Nat) (hj : j ∈ idxs ∨ (getSlot s j).status ≠ .pendingBlit) :
    (getSlot (processFold env idxs fbo s).1 j).status ≠ .pendingBlit := by
  induction idxs generalizing fbo s with
  | nil =>
    rcases hj with h | h
    · simp at h
    · exact h
  | cons i rest ih =>
    simp only [processFold]
    by_cases hr : j ∈ rest
    · exact ih _ _ (Or.inl hr)
    · refine ih _ _ (Or.inr ?_)
      rcases hj with h | h
      · rcases List.mem_cons.mp h with rfl | h2
        · exact processSlot_post_self env s j fbo
        · exact absurd h2 hr
      · exact processSlot_keeps_status env s i j fbo .pendingBlit (by simp) h

theorem processFold_keeps_no_discard (env : TileEnv) (idxs : List Nat) (fbo : Bool)
    (s : QState) (j : Nat) (h : (getSlot s j).status ≠ .pendingDiscard) :
    (getSlot (processFold env idxs fbo s).1 j).status ≠ .pendingDiscard := by
  induction idxs generalizing fbo s with
  | nil => exact h
  | cons i rest ih =>
    simp only [processFold]
    exact ih _ _ (processSlot_keeps_status env s i j fbo .pendingDiscard (by simp) h)

/-! ### Loops over slots that need no processing are inert -/

theorem cleanupFold_inert (env : TileEnv) (idxs : List Nat) (s : QState)
    (h : ∀ i ∈ idxs, (getSlot s i).status ≠ .pendingDiscard) :
    cleanupFold env idxs s = (s, []) := by
  induction idxs with
  | nil => rfl
  | cons i rest ih =>
    have hstep : cleanupStep env s i = (s, []) := by
      unfold cleanupStep
      rw [if_neg (h i (List.mem_cons_self ..))]
    simp only [cleanupFold, hstep]
    rw [ih fun i' hi' => h i' (List.mem_cons_of_mem _ hi')]
    rfl

theorem processFold_inert (env : TileEnv) (idxs : List Nat) (fbo : Bool) (s : QState)
    (h : ∀ i ∈ idxs, (getSlot s i).status ≠ .pendingBlit) :
    processFold env idxs fbo s = (s, fbo, []) := by
  induction idxs with
  | nil => rfl
  | cons i rest ih =>
    have hstep : processSlot env s i fbo = (s, fbo, []) := by
      unfold processSlot
      rw [if_neg (h i (List.mem_cons_self ..))]
    simp only [processFold, hstep]
    rw [ih fun i' hi' => h i' (List.mem_cons_of_mem _ hi')]
    rfl

theorem cleanupPendingDiscard_inert (env : TileEnv) (s : QState)
    (h : ∀ j, j < s.transferQueueSize → (getSlot s j).status ≠ .pendingDiscard) :
    cleanupPendingDiscard env s = (s, []) := by
  unfold cleanupPendingDiscard
  rcases Nat.eq_zero_or_pos s.transferQueueSize with hn | hn
  · rw [hn]
    rfl
  · rw [cleanupLoop_eq_fold env s.transferQueueSize s.transferQueueSize
      (getNextTransferQueueIndex s) s (Nat.mod_lt _ hn)]
    apply cleanupFold_inert
    intro i hi
    rcases (mem_walkIndexList ..).mp hi with ⟨j, _, rfl⟩
    exact h _ (Nat.mod_lt _ hn)

theorem walkLoop_inert (env : TileEnv) (n k start : Nat) (fbo : Bool) (s : QState)
    (h : ∀ j, j < n → (getSlot s j).status ≠ .pendingBlit)
    (hk : k = 0 ∨ start < n) :
    walkLoop env n k start fbo s = (s, fbo, []) := by
  rcases hk with rfl | hs
  · rfl
  · rw [walkLoop_eq_fold env n k start fbo s hs]
    apply processFold_inert
    intro i hi
    rcases (mem_walkIndexList ..).mp hi with ⟨j, _, rfl⟩
    exact h _ (Nat.mod_lt _ (Nat.lt_of_le_of_lt (Nat.zero_le _) hs))

/-! ### Frame conditions of the loops and of the full drain -/

theorem cleanupLoop_frame (env : TileEnv) (n : Nat) :
    ∀ (k index : Nat) (s : QState),
      (cleanupLoop env n k index s).1.transferQueueSize = s.transferQueueSize ∧
      (cleanupLoop env n k index s).1.transferQueueIndex = s.transferQueueIndex ∧
      (cleanupLoop env n k index s).1.emptyItemCount = s.emptyItemCount ∧
      (cleanupLoop env n k index s).1.hasGLContext = s.hasGLContext ∧
      (cleanupLoop env n k index s).1.interruptedByRemovingOp = s.interruptedByRemovingOp ∧
      (cleanupLoop env n k index s).1.currentUploadType = s.currentUploadType ∧
      (cleanupLoop env n k index s).1.pureColorTileQueue = s.pureColorTileQueue ∧
      (cleanupLoop env n k index s).1.transferQueue.length = s.transferQueue.length := by
  intro k
  induction k with
  | zero => exact fun _ _ => ⟨rfl, rfl, rfl, rfl, rfl, rfl, rfl, rfl⟩
  | succ k ih =>
    intro index s
    have h1 := cleanupStep_frame env s index
    have h2 := ih ((index + 1) % n) (cleanupStep env s index).1
    simp only [cleanupLoop]
    exact ⟨h2.1.trans h1.1, h2.2.1.trans h1.2.1, h2.2.2.1.trans h1.2.2.1,
      h2.2.2.2.1.trans h1.2.2.2.1, h2.2.2.2.2.1.trans h1.2.2.2.2.1,
      h2.2.2.2.2.2.1.trans h1.2.2.2.2.2.1, h2.2.2.2.2.2.2.1.trans h1.2.2.2.2.2.2.1,
      h2.2.2.2.2.2.2.2.trans h1.2.2.2.2.2.2.2⟩

theorem walkLoop_frame (env : TileEnv) (n : Nat) :
    ∀ (k index : Nat) (fbo : Bool) (s : QState),
      (walkLoop env n k index fbo s).1.transferQueueSize = s.transferQueueSize ∧
      (walkLoop env n k index fbo s).1.transferQueueIndex = s.transferQueueIndex ∧
      (walkLoop env n k index fbo s).1.emptyItemCount = s.emptyItemCount ∧
      (walkLoop env n k index fbo s).1.hasGLContext = s.hasGLContext ∧
      (walkLoop env n k index fbo s).1.interruptedByRemovingOp = s.interruptedByRemovingOp ∧
      (walkLoop env n k index fbo s).1.currentUploadType = s.currentUploadType ∧
      (walkLoop env n k index fbo s).1.pureColorTileQueue = s.pureColorTileQueue ∧
      (walkLoop env n k index fbo s).1.transferQueue.length = s.transferQueue.length := by
  intro k
  induction k with
  | zero => exact fun _ _ _ => ⟨rfl, rfl, rfl, rfl, rfl, rfl, rfl, rfl⟩
  | succ k ih =>
    intro index fbo s
    have h1 := processSlot_frame env s index fbo
    have h2 := ih ((index + 1) % n) (processSlot env s index fbo).2.1
      (processSlot env s index fbo).1
    simp only [walkLoop]
    exact ⟨h2.1.trans h1.1, h2.2.1.trans h1.2.1, h2.2.2.1.trans h1.2.2.1,
      h2.2.2.2.1.trans h1.2.2.2.1, h2.2.2.2.2.1.trans h1.2.2.2.2.1,
      h2.2.2.2.2.2.1.trans h1.2.2.2.2.2.1, h2.2.2.2.2.2.2.1.trans h1.2.2.2.2.2.2.1,
      h2.2.2.2.2.2.2.2.trans h1.2.2.2.2.2.2.2⟩

/-- The queue state a drain cycle sees when it starts the ring walk: pending
discards resolved, GL context re-marked live, side queue drained. -/
def midState (env : TileEnv) (s : QState) : QState :=
  { (cleanupPendingDiscard env s).1 with hasGLContext := true, pureColorTileQueue := [] }

/-- The ring walk performed by a drain cycle. -/
def walkResult (env : TileEnv) (s : QState) : QState × Bool × List Ev :=
  walkLoop env (midState env s).transferQueueSize (midState env s).transferQueueSize
    (getNextTransferQueueIndex (midState env s)) false (midState env s)

/-- `updateDirtyTiles` decomposed into its three phases, with the emitted
trace laid out in phase order. -/
theorem updateDirtyTiles_decomp (env : TileEnv) (s : QState) :
    updateDirtyTiles env s =
      ({ (walkResult env s).1 with
          emptyItemCount := (walkResult env s).1.transferQueueSize },
       (cleanupPendingDiscard env s).2 ++
         ((cleanupPendingDiscard env s).1.pureColorTileQueue.map (pureColorStep env)).flatten ++
         (walkResult env s).2.2 ++
         (if (walkResult env s).2.1 then [Ev.restoreGLState] else []) ++
         [Ev.signalCond]) := rfl

theorem cleanupPendingDiscard_frame (env : TileEnv) (s : QState) :
    (cleanupPendingDiscard env s).1.transferQueueSize = s.transferQueueSize ∧
    (cleanupPendingDiscard env s).1.transferQueueIndex = s.transferQueueIndex ∧
    (cleanupPendingDiscard env s).1.emptyItemCount = s.emptyItemCount ∧
    (cleanupPendingDiscard env s).1.hasGLContext = s.hasGLContext ∧
    (cleanupPendingDiscard env s).1.interruptedByRemovingOp = s.interruptedByRemovingOp ∧
    (cleanupPendingDiscard env s).1.currentUploadType = s.currentUploadType ∧
    (cleanupPendingDiscard env s).1.pureColorTileQueue = s.pureColorTileQueue ∧
    (cleanupPendingDiscard env s).1.transferQueue.length = s.transferQueue.length :=
  cleanupLoop_frame env s.transferQueueSize s.transferQueueSize
    (getNextTransferQueueIndex s) s

theorem midState_frame (env : TileEnv) (s : QState) :
    (midState env s).transferQueueSize = s.transferQueueSize ∧
    (midState env s).transferQueueIndex = s.transferQueueIndex ∧
    (midState env s).emptyItemCount = s.emptyItemCount ∧
    (midState env s).hasGLContext = true ∧
    (midState env s).interruptedByRemovingOp = s.interruptedByRemovingOp ∧
    (midState env s).currentUploadType = s.currentUploadType ∧
    (midState env s).pureColorTileQueue = [] ∧
    (midState env s).transferQueue.length = s.transferQueue.length := by
  have hc := cleanupPendingDiscard_frame env s
  exact ⟨hc.1, hc.2.1, hc.2.2.1, rfl, hc.2.2.2.2.1, hc.2.2.2.2.2.1, rfl,
    hc.2.2.2.2.2.2.2⟩

theorem updateDirtyTiles_frame (env : TileEnv) (s : QState) :
    (updateDirtyTiles env s).1.transferQueueSize = s.transferQueueSize ∧
    (updateDirtyTiles env s).1.transferQueueIndex = s.transferQueueIndex ∧
    (updateDirtyTiles env s).1.emptyItemCount = s.transferQueueSize ∧
    (updateDirtyTiles env s).1.hasGLContext = true ∧
    (updateDirtyTiles env s).1.interruptedByRemovingOp = s.interruptedByRemovingOp ∧
    (updateDirtyTiles env s).1.currentUploadType = s.currentUploadType ∧
    (updateDirtyTiles env s).1.pureColorTileQueue = [] ∧
    (updateDirtyTiles env s).1.transferQueue.length = s.transferQueue.length := by
  have hm := midState_frame env s
  have hw := walkLoop_frame env (midState env s).transferQueueSize
    (midState env s).transferQueueSize (getNextTransferQueueIndex (midState env s))
    false (midState env s)
  rw [updateDirtyTiles_decomp]
  refine ⟨hw.1.trans hm.1, hw.2.1.trans hm.2.1, hw.1.trans hm.1,
    hw.2.2.2.1.trans hm.2.2.2.1, hw.2.2.2.2.1.trans hm.2.2.2.2.1,
    hw.2.2.2.2.2.1.trans hm.2.2.2.2.2.1, hw.2.2.2.2.2.2.1.trans hm.2.2.2.2.2.2.1,
    hw.2.2.2.2.2.2.2.trans hm.2.2.2.2.2.2.2⟩

theorem getSlot_midState (env : TileEnv) (s : QState) (j : Nat) :
    getSlot (midState env s) j = getSlot (cleanupPendingDiscard env s).1 j :=
  getSlot_eq_of_ring_eq rfl j

theorem midState_no_discard (env : TileEnv) (s : QState) (j : Nat)
    (hj : j < s.transferQueueSize) :
    (getSlot (midState env s) j).status ≠ .pendingDiscard := by
  have hn : 0 < s.transferQueueSize := Nat.lt_of_le_of_lt (Nat.zero_le _) hj
  have hstart0 : getNextTransferQueueIndex s < s.transferQueueSize := Nat.mod_lt _ hn
  rw [getSlot_midState]
  unfold cleanupPendingDiscard
  rw [cleanupLoop_eq_fold env s.transferQueueSize s.transferQueueSize
    (getNextTransferQueueIndex s) s hstart0]
  exact cleanupFold_no_discard env _ s j
    (Or.inl ((mem_walkIndexList_full _ _ hn hstart0 j).mpr hj))

/-- After one drain cycle every ring slot (within capacity) is `emptyItem`. -/
theorem updateDirtyTiles_slot_empty (env : TileEnv) (s : QState) (j : Nat)
    (hj : j < s.transferQueueSize) :
    (getSlot (updateDirtyTiles env s).1 j).status = .emptyItem := by
  have hn : 0 < s.transferQueueSize := Nat.lt_of_le_of_lt (Nat.zero_le _) hj
  have hm := midState_frame env s
  have hstart2 : getNextTransferQueueIndex (midState env s) <
      (midState env s).transferQueueSize := by
    unfold getNextTransferQueueIndex
    rw [hm.1]
    exact Nat.mod_lt _ hn
  have hfold : walkResult env s =
      processFold env (walkIndexList (midState env s).transferQueueSize
        (getNextTransferQueueIndex (midState env s)) (midState env s).transferQueueSize)
        false (midState env s) := by
    unfold walkResult
    exact walkLoop_eq_fold env _ _ _ false _ hstart2
  have hmem : j ∈ walkIndexList (midState env s).transferQueueSize
      (getNextTransferQueueIndex (midState env s)) (midState env s).transferQueueSize := by
    rw [mem_walkIndexList_full _ _ (by omega) hstart2, hm.1]
    exact hj
  have hnb := processFold_no_blit env _ false (midState env s) j (Or.inl hmem)
  have hnd := processFold_keeps_no_discard env
    (walkIndexList (midState env s).transferQueueSize
      (getNextTransferQueueIndex (midState env s)) (midState env s).transferQueueSize)
    false (midState env s) j (midState_no_discard env s j hj)
  rw [updateDirtyTiles_decomp]
  have hring : getSlot ({ (walkResult env s).1 with
      emptyItemCount := (walkResult env s).1.transferQueueSize } : QState) j =
      getSlot (walkResult env s).1 j := getSlot_eq_of_ring_eq rfl j
  show (getSlot ({ (walkResult env s).1 with
      emptyItemCount := (walkResult env s).1.transferQueueSize } : QState) j).status = _
  rw [hring, hfold]
  cases hst : (getSlot (processFold env
      (walkIndexList (midState env s).transferQueueSize
        (getNextTransferQueueIndex (midState env s)) (midState env s).transferQueueSize)
      false (midState env s)).1 j).status with
  | emptyItem => rfl
  | pendingBlit => exact absurd hst hnb
  | pendingDiscard => exact absurd hst hnd

end TQ

namespace TQ

/-- C10: draining is idempotent — if a drain cycle completes and nothing is
enqueued (ring or side queue) and nothing is marked for discard in between,
the next drain performs zero GPU writes and zero destination updates: its
whole trace is the single unconditional condition signal (no `updateTexImage`,
no bitmap upload, no blit, no GL state save/restore, no transfer-complete). -/
theorem updateDirtyTiles_claim10 (env1 env2 : TileEnv) (s : QState) :
    (updateDirtyTiles env2 (updateDirtyTiles env1 s).1).2 = [Ev.signalCond] := by
  set s' := (updateDirtyTiles env1 s).1 with hs'
  have hf := updateDirtyTiles_frame env1 s
  have hempty : ∀ j, j < s'.transferQueueSize → (getSlot s' j).status = .emptyItem := by
    intro j hj
    apply updateDirtyTiles_slot_empty env1 s j
    rw [← hf.1]
    exact hj
  have h1 : cleanupPendingDiscard env2 s' = (s', []) := by
    apply cleanupPendingDiscard_inert
    intro j hj
    rw [hempty j hj]
    simp
  have hside : s'.pureColorTileQueue = [] := hf.2.2.2.2.2.2.1
  have hmidsz : (midState env2 s').transferQueueSize = s'.transferQueueSize :=
    (midState_frame env2 s').1
  have hmidslots : ∀ j, j < (midState env2 s').transferQueueSize →
      (getSlot (midState env2 s') j).status ≠ .pendingBlit := by
    intro j hj
    rw [getSlot_midState, h1, hempty j (by omega)]
    simp
  have hwalk : walkResult env2 s' = (midState env2 s', false, []) := by
    unfold walkResult
    apply walkLoop_inert env2 _ _ _ false _ hmidslots
    rcases Nat.eq_zero_or_pos (midState env2 s').transferQueueSize with h0 | hpos
    · exact Or.inl h0
    · refine Or.inr ?_
      unfold getNextTransferQueueIndex
      exact Nat.mod_lt _ hpos
  rw [updateDirtyTiles_decomp env2 s', h1, hwalk]
  simp [hside]

/-- C6: `setPendingDiscard` flips every `pendingBlit` slot to `pendingDiscard`
(leaving every other slot, in particular every empty one, untouched), clears
the side queue outright, marks the GL context as lost, and signals the
admission condition exactly once if the context was live before the call and
not at all otherwise. -/
theorem setPendingDiscard_claim6 (s : QState) :
    (setPendingDiscard s).1.pureColorTileQueue = [] ∧
    (setPendingDiscard s).1.hasGLContext = false ∧
    (∀ j, (getSlot s j).status = .pendingBlit →
       getSlot (setPendingDiscard s).1 j = { getSlot s j with status := .pendingDiscard }) ∧
    (∀ j, (getSlot s j).status ≠ .pendingBlit →
       getSlot (setPendingDiscard s).1 j = getSlot s j) ∧
    ((setPendingDiscard s).2.count .signalCond = if s.hasGLContext then 1 else 0) ∧
    ((setPendingDiscard s).2 = if s.hasGLContext then [.signalCond] else []) := by
  have hmap : ∀ j, getSlot (setPendingDiscard s).1 j =
      (fun d => if d.status = .pendingBlit then
        { d with status := .pendingDiscard } else d) (getSlot s j) := by
    intro j
    exact (getSlot_eq_of_ring_eq rfl j).trans
      (getSlot_map s _ (by simp) j)
  refine ⟨rfl, rfl, ?_, ?_, ?_, rfl⟩
  · intro j h
    rw [hmap j]
    simp [h]
  · intro j h
    rw [hmap j]
    simp [h]
  · by_cases h : s.hasGLContext
    · simp [setPendingDiscard, h]
    · simp [setPendingDiscard, h]

/-- Closed instance of `setPendingDiscard_claim6`: a freshly enqueued slot in
the minimal-capacity queue becomes `pendingDiscard` and the live context is
signalled exactly once. -/
theorem setPendingDiscard_claim6_witness :
    getSlot (setPendingDiscard (addItemInTransferQueue envNoBack { baseTile := 0 }
        .GpuUpload (mkTransferQueue true))).1 0 =
      { getSlot (addItemInTransferQueue envNoBack { baseTile := 0 }
          .GpuUpload (mkTransferQueue true)) 0 with status := .pendingDiscard } ∧
    (setPendingDiscard (addItemInTransferQueue envNoBack { baseTile := 0 }
        .GpuUpload (mkTransferQueue true))).2.count .signalCond = 1 := by
  constructor
  · exact (setPendingDiscard_claim6 _).2.2.1 0 (by decide)
  · rw [(setPendingDiscard_claim6 (addItemInTransferQueue envNoBack { baseTile := 0 }
      .GpuUpload (mkTransferQueue true))).2.2.2.2.1]
    decide

/-- What `addItemInTransferQueue` does to the ring: the slot at the advanced
write index is populated as `pendingBlit` from the render info, every other
slot is untouched, the write index advances, and the empty count decrements. -/
theorem addItemInTransferQueue_post (env : TileEnv) (renderInfo : TileRenderInfo)
    (type : TextureUploadType) (s : QState)
    (hn : 0 < s.transferQueueSize)
    (hlen : s.transferQueue.length = s.transferQueueSize) :
    (getSlot (addItemInTransferQueue env renderInfo type s)
       ((s.transferQueueIndex + 1) % s.transferQueueSize)).status = .pendingBlit ∧
    (getSlot (addItemInTransferQueue env renderInfo type s)
       ((s.transferQueueIndex + 1) % s.transferQueueSize)).savedTilePtr =
      some renderInfo.baseTile ∧
    (getSlot (addItemInTransferQueue env renderInfo type s)
       ((s.transferQueueIndex + 1) % s.transferQueueSize)).savedTileTexturePtr =
      env.backTexture renderInfo.baseTile ∧
    (getSlot (addItemInTransferQueue env renderInfo type s)
       ((s.transferQueueIndex + 1) % s.transferQueueSize)).uploadType = type ∧
    (addItemInTransferQueue env renderInfo type s).transferQueueIndex =
      (s.transferQueueIndex + 1) % s.transferQueueSize ∧
    (addItemInTransferQueue env renderInfo type s).emptyItemCount =
      s.emptyItemCount - 1 ∧
    (∀ j, j ≠ (s.transferQueueIndex + 1) % s.transferQueueSize →
       getSlot (addItemInTransferQueue env renderInfo type s) j = getSlot s j) := by
  have hidx : (s.transferQueueIndex + 1) % s.transferQueueSize <
      s.transferQueue.length := by
    rw [hlen]
    exact Nat.mod_lt _ hn
  have hring : ∀ j, getSlot (addItemInTransferQueue env renderInfo type s) j =
      getSlot (setSlot s ((s.transferQueueIndex + 1) % s.transferQueueSize)
        (if type = .CpuUpload then
          { addItemCommon env renderInfo type
              (getSlot s ((s.transferQueueIndex + 1) % s.transferQueueSize)) with
            bitmap := true }
         else addItemCommon env renderInfo type
            (getSlot s ((s.transferQueueIndex + 1) % s.transferQueueSize)))) j := by
    intro j
    apply getSlot_eq_of_ring_eq
    unfold addItemInTransferQueue
    by_cases hc : type = .CpuUpload <;> simp [hc]
  have hself := getSlot_setSlot_self s ((s.transferQueueIndex + 1) % s.transferQueueSize)
    (if type = .CpuUpload then
      { addItemCommon env renderInfo type
          (getSlot s ((s.transferQueueIndex + 1) % s.transferQueueSize)) with
        bitmap := true }
     else addItemCommon env renderInfo type
        (getSlot s ((s.transferQueueIndex + 1) % s.transferQueueSize))) hidx
  refine ⟨?_, ?_, ?_, ?_, rfl, rfl, ?_⟩
  · rw [hring, hself]
    by_cases hc : type = .CpuUpload <;> simp [hc, addItemCommon]
  · rw [hring, hself]
    by_cases hc : type = .CpuUpload <;> simp [hc, addItemCommon]
  · rw [hring, hself]
    by_cases hc : type = .CpuUpload <;> simp [hc, addItemCommon]
  · rw [hring, hself]
    by_cases hc : type = .CpuUpload <;> simp [hc, addItemCommon]
  · intro j hj
    rw [hring, getSlot_setSlot_ne s _ j _ hj]

/-- C2, counterexample: with the minimal-capacity ring full, a producer that
blocks inside `readyForUpdate` can be woken by a drain cycle (which signals
the condition after resetting the empty count), yet lose the race to another
producer that fills the freed slot before the waiter reacquires the lock: the
woken call then returns a positive readiness flag although the empty-slot
count is zero at the moment of return, because the count is not re-checked
after the wait.  Refutes "returns a positive readiness flag only when … at
least one ring slot is Empty". -/
theorem readyForUpdate_claim2_counterexample :
    (signalsIn
      (tryUpdateQueueWithBitmap (mkTransferQueue true) [] { baseTile := 0 }
        envNoBack true true).2
      [LockedOp.drainOp envNoBack,
       LockedOp.fastEnqueue envNoBack { baseTile := 0 } true true] = true) ∧
    ((readyForUpdate
      (tryUpdateQueueWithBitmap (mkTransferQueue true) [] { baseTile := 0 }
        envNoBack true true).2
      [LockedOp.drainOp envNoBack,
       LockedOp.fastEnqueue envNoBack { baseTile := 0 } true true]).1 = true) ∧
    ((readyForUpdate
      (tryUpdateQueueWithBitmap (mkTransferQueue true) [] { baseTile := 0 }
        envNoBack true true).2
      [LockedOp.drainOp envNoBack,
       LockedOp.fastEnqueue envNoBack { baseTile := 0 } true true]).2.emptyItemCount
      = 0) := by
  refine ⟨by decide, by decide, by decide⟩

/-- C2, amended: a positive readiness flag guarantees that at the moment of
return the GL context is live and the interruption flag is clear, and — when
the call did not have to wait (the empty count was nonzero at entry) — that
the state is unchanged, hence the empty count is still nonzero; after a wait
the empty count is not re-checked.  Whenever the flag is negative,
`tryUpdateQueueWithBitmap` performs no write at all: its resulting state is
exactly the state `readyForUpdate` left behind. -/
theorem readyForUpdate_claim2_amended (s : QState) (wake : List LockedOp) :
    ((readyForUpdate s wake).1 = true →
      (readyForUpdate s wake).2.hasGLContext = true) ∧
    ((readyForUpdate s wake).1 = true → s.emptyItemCount ≠ 0 →
      (readyForUpdate s wake).2 = s) ∧
    (∀ renderInfo env anw writeOk,
      (tryUpdateQueueWithBitmap s wake renderInfo env anw writeOk).1 = false →
      (tryUpdateQueueWithBitmap s wake renderInfo env anw writeOk).2 =
        (readyForUpdate s wake).2) := by
  refine ⟨?_, ?_, ?_⟩
  · intro h
    unfold readyForUpdate at h ⊢
    by_cases h1 : s.hasGLContext
    · by_cases h2 : s.emptyItemCount = 0
      · by_cases h3 : s.interruptedByRemovingOp
        · simp [h1, h2, h3] at h
        · by_cases h4 : (applyLockedOps s wake).interruptedByRemovingOp
          · simp [h1, h2, h3, h4] at h
          · by_cases h5 : (applyLockedOps s wake).hasGLContext
            · simp [h1, h2, h3, h4, h5]
            · simp [h1, h2, h3, h4, h5] at h
      · simp [h1, h2]
    · simp [h1] at h
  · intro h h2
    unfold readyForUpdate
    by_cases h1 : s.hasGLContext
    · simp [h1, h2]
    · unfold readyForUpdate at h
      simp [h1] at h
  · intro renderInfo env anw writeOk h
    unfold tryUpdateQueueWithBitmap at h ⊢
    by_cases hr : (readyForUpdate s wake).1
    · by_cases hg : (readyForUpdate s wake).2.currentUploadType = .GpuUpload
      · cases anw with
        | false => simp [hr, hg]
        | true =>
          cases writeOk with
          | false => simp [hr, hg]
          | true => simp [hr, hg] at h
      · simp [hr, hg] at h
    · simp [hr]

/-- Closed instance of `readyForUpdate_claim2_amended`: on a fresh queue the
gate reports readiness without waiting and leaves the state untouched. -/
theorem readyForUpdate_claim2_amended_witness :
    (readyForUpdate (mkTransferQueue true) []).1 = true ∧
    (readyForUpdate (mkTransferQueue true) []).2 = mkTransferQueue true := by
  have h := (readyForUpdate_claim2_amended (mkTransferQueue true) []).2.1
  exact ⟨by decide, h (by decide) (by decide)⟩

theorem tryUpdate_false_iff (s : QState) (wake : List LockedOp)
    (renderInfo : TileRenderInfo) (env : TileEnv) (anw writeOk : Bool) :
    (tryUpdateQueueWithBitmap s wake renderInfo env anw writeOk).1 = false ↔
      ((readyForUpdate s wake).1 = false ∨
       ((readyForUpdate s wake).2.currentUploadType = .GpuUpload ∧
        (anw = false ∨ writeOk = false))) := by
  unfold tryUpdateQueueWithBitmap
  by_cases hr : (readyForUpdate s wake).1
  · by_cases hg : (readyForUpdate s wake).2.currentUploadType = .GpuUpload
    · cases anw with
      | false => simp [hr, hg]
      | true =>
        cases writeOk with
        | false => simp [hr, hg]
        | true => simp [hr, hg]
    · simp [hr, hg]
  · simp only [Bool.not_eq_true] at hr
    simp [hr]

theorem tryUpdate_false_state (s : QState) (wake : List LockedOp)
    (renderInfo : TileRenderInfo) (env : TileEnv) (anw writeOk : Bool)
    (h : (tryUpdateQueueWithBitmap s wake renderInfo env anw writeOk).1 = false) :
    (tryUpdateQueueWithBitmap s wake renderInfo env anw writeOk).2 =
      (readyForUpdate s wake).2 := by
  unfold tryUpdateQueueWithBitmap at h ⊢
  by_cases hr : (readyForUpdate s wake).1
  · by_cases hg : (readyForUpdate s wake).2.currentUploadType = .GpuUpload
    · cases anw with
      | false => simp [hr, hg]
      | true =>
        cases writeOk with
        | false => simp [hr, hg]
        | true => simp [hr, hg] at h
    · simp [hr, hg] at h
  · simp [hr]

theorem tryUpdate_true_state (s : QState) (wake : List LockedOp)
    (renderInfo : TileRenderInfo) (env : TileEnv) (anw writeOk : Bool)
    (h : (tryUpdateQueueWithBitmap s wake renderInfo env anw writeOk).1 = true) :
    (tryUpdateQueueWithBitmap s wake renderInfo env anw writeOk).2 =
      addItemInTransferQueue env renderInfo
        (readyForUpdate s wake).2.currentUploadType (readyForUpdate s wake).2 := by
  unfold tryUpdateQueueWithBitmap at h ⊢
  by_cases hr : (readyForUpdate s wake).1
  · by_cases hg : (readyForUpdate s wake).2.currentUploadType = .GpuUpload
    · cases anw with
      | false => simp [hr, hg] at h
      | true =>
        cases writeOk with
        | false => simp [hr, hg] at h
        | true => simp [hr, hg]
    · simp [hr, hg]
  · simp [hr] at h

/-- C5: `tryUpdateQueueWithBitmap` fails exactly when admission was denied, or
the upload strategy is the shared surface and the native window handle is
absent, or the shared-surface pixel write failed; on failure no write happens
(the state is exactly what the admission gate left behind); on success exactly
one slot is enqueued: the slot at the advanced write index becomes
`pendingBlit`, every other slot is untouched, and the empty count drops by
one. -/
theorem tryUpdateQueueWithBitmap_claim5 (s : QState) (wake : List LockedOp)
    (renderInfo : TileRenderInfo) (env : TileEnv) (anw writeOk : Bool) :
    ((tryUpdateQueueWithBitmap s wake renderInfo env anw writeOk).1 = false ↔
      ((readyForUpdate s wake).1 = false ∨
       ((readyForUpdate s wake).2.currentUploadType = .GpuUpload ∧
        (anw = false ∨ writeOk = false)))) ∧
    ((tryUpdateQueueWithBitmap s wake renderInfo env anw writeOk).1 = false →
      (tryUpdateQueueWithBitmap s wake renderInfo env anw writeOk).2 =
        (readyForUpdate s wake).2) ∧
    ((tryUpdateQueueWithBitmap s wake renderInfo env anw writeOk).1 = true →
      0 < (readyForUpdate s wake).2.transferQueueSize →
      (readyForUpdate s wake).2.transferQueue.length =
        (readyForUpdate s wake).2.transferQueueSize →
      ((getSlot (tryUpdateQueueWithBitmap s wake renderInfo env anw writeOk).2
          (((readyForUpdate s wake).2.transferQueueIndex + 1) %
            (readyForUpdate s wake).2.transferQueueSize)).status = .pendingBlit ∧
       (tryUpdateQueueWithBitmap s wake renderInfo env anw writeOk).2.transferQueueIndex =
         ((readyForUpdate s wake).2.transferQueueIndex + 1) %
           (readyForUpdate s wake).2.transferQueueSize ∧
       (tryUpdateQueueWithBitmap s wake renderInfo env anw writeOk).2.emptyItemCount =
         (readyForUpdate s wake).2.emptyItemCount - 1 ∧
       ∀ j, j ≠ ((readyForUpdate s wake).2.transferQueueIndex + 1) %
           (readyForUpdate s wake).2.transferQueueSize →
         getSlot (tryUpdateQueueWithBitmap s wake renderInfo env anw writeOk).2 j =
           getSlot (readyForUpdate s wake).2 j)) := by
  refine ⟨tryUpdate_false_iff s wake renderInfo env anw writeOk,
    tryUpdate_false_state s wake renderInfo env anw writeOk, ?_⟩
  intro h hn hlen
  rw [tryUpdate_true_state s wake renderInfo env anw writeOk h]
  have hp := addItemInTransferQueue_post env renderInfo
    (readyForUpdate s wake).2.currentUploadType (readyForUpdate s wake).2 hn hlen
  exact ⟨hp.1, hp.2.2.2.2.1, hp.2.2.2.2.2.1, hp.2.2.2.2.2.2⟩

/-- Closed instance of `tryUpdateQueueWithBitmap_claim5`: under the shared
surface strategy with no native window the call fails and writes nothing. -/
theorem tryUpdateQueueWithBitmap_claim5_witness :
    (tryUpdateQueueWithBitmap (mkTransferQueue true) [] { baseTile := 0 }
      envNoBack false true).1 = false ∧
    (tryUpdateQueueWithBitmap (mkTransferQueue true) [] { baseTile := 0 }
      envNoBack false true).2 = (readyForUpdate (mkTransferQueue true) []).2 := by
  have h := tryUpdateQueueWithBitmap_claim5 (mkTransferQueue true) []
    { baseTile := 0 } envNoBack false true
  exact ⟨h.1.mpr (Or.inr (by decide)), h.2.1 (h.1.mpr (Or.inr (by decide)))⟩

/-- `cleanupStep`'s trace depends only on the slot it processes. -/
theorem cleanupStep_events_of_slot (env : TileEnv) {s s' : QState} (i : Nat)
    (h : getSlot s i = getSlot s' i) :
    (cleanupStep env s i).2 = (cleanupStep env s' i).2 := by
  unfold cleanupStep
  rw [h]
  by_cases hc : (getSlot s' i).status = .pendingDiscard
  · simp [hc]
  · simp [hc]

/-- Any event of processing index `i` (with the slot contents it has at fold
entry) appears in the trace of a cleanup pass over a duplicate-free index list
containing `i`. -/
theorem cleanupFold_event_mem (env : TileEnv) (idxs : List Nat) (s : QState) (i : Nat)
    (hnd : idxs.Nodup) (hi : i ∈ idxs) (e : Ev)
    (he : e ∈ (cleanupStep env s i).2) : e ∈ (cleanupFold env idxs s).2 := by
  induction idxs generalizing s with
  | nil => cases hi
  | cons a rest ih =>
    simp only [cleanupFold, List.mem_append]
    rcases List.mem_cons.mp hi with rfl | hmem
    · exact Or.inl he
    · refine Or.inr ?_
      have hne : i ≠ a := by
        rintro rfl
        exact (List.nodup_cons.mp hnd).1 hmem
      have hev : (cleanupStep env (cleanupStep env s a).1 i).2 =
          (cleanupStep env s i).2 :=
        cleanupStep_events_of_slot env i (getSlot_cleanupStep_ne env s a i hne)
      exact ih (cleanupStep env s a).1 (List.nodup_cons.mp hnd).2 hmem (hev ▸ he)

/-- Discard resolution issues the destination-discard call for every
`pendingDiscard` slot whose saved texture is still owned by the saved tile. -/
theorem cleanupPendingDiscard_discard_event (env : TileEnv) (s : QState)
    (i tile texture : Nat) (hi : i < s.transferQueueSize)
    (hst : (getSlot s i).status = .pendingDiscard)
    (htile : (getSlot s i).savedTilePtr = some tile)
    (htex : (getSlot s i).savedTileTexturePtr = some texture)
    (hown : env.owner texture = some tile) :
    Ev.discardBackTexture tile ∈ (cleanupPendingDiscard env s).2 := by
  have hn : 0 < s.transferQueueSize := Nat.lt_of_le_of_lt (Nat.zero_le _) hi
  have hstart : getNextTransferQueueIndex s < s.transferQueueSize := Nat.mod_lt _ hn
  unfold cleanupPendingDiscard
  rw [cleanupLoop_eq_fold env s.transferQueueSize s.transferQueueSize
    (getNextTransferQueueIndex s) s hstart]
  apply cleanupFold_event_mem env _ s i
    (walkIndexList_nodup _ _ _ (Nat.le_refl _))
    ((mem_walkIndexList_full _ _ hn hstart i).mpr hi)
  unfold cleanupStep
  rw [if_pos hst]
  simp [discardEvs, htile, htex, hown]

theorem updateDirtyTiles_discard_event (env : TileEnv) (s : QState)
    (i tile texture : Nat) (hi : i < s.transferQueueSize)
    (hst : (getSlot s i).status = .pendingDiscard)
    (htile : (getSlot s i).savedTilePtr = some tile)
    (htex : (getSlot s i).savedTileTexturePtr = some texture)
    (hown : env.owner texture = some tile) :
    Ev.discardBackTexture tile ∈ (updateDirtyTiles env s).2 := by
  rw [updateDirtyTiles_decomp]
  simp only [List.mem_append]
  exact Or.inl (Or.inl (Or.inl (Or.inl
    (cleanupPendingDiscard_discard_event env s i tile texture hi hst htile htex hown))))

/-- The per-slot effect of `setPendingDiscard` on the ring. -/
theorem setPendingDiscard_slot_map (s : QState) (j : Nat) :
    getSlot (setPendingDiscard s).1 j =
      (fun d => if d.status = .pendingBlit then
        { d with status := .pendingDiscard } else d) (getSlot s j) :=
  (getSlot_eq_of_ring_eq rfl j).trans (getSlot_map s _ (by simp) j)

theorem tryUpdate_true_ready (s : QState) (wake : List LockedOp)
    (renderInfo : TileRenderInfo) (env : TileEnv) (anw writeOk : Bool)
    (h : (tryUpdateQueueWithBitmap s wake renderInfo env anw writeOk).1 = true) :
    (readyForUpdate s wake).1 = true := by
  unfold tryUpdateQueueWithBitmap at h
  by_cases hr : (readyForUpdate s wake).1
  · exact hr
  · simp [hr] at h

theorem readyForUpdate_true_ctx (s : QState) (wake : List LockedOp)
    (h : (readyForUpdate s wake).1 = true) :
    (readyForUpdate s wake).2.hasGLContext = true := by
  unfold readyForUpdate at h ⊢
  by_cases h1 : s.hasGLContext
  · by_cases h2 : s.emptyItemCount = 0
    · by_cases h3 : s.interruptedByRemovingOp
      · simp [h1, h2, h3] at h
      · by_cases h4 : (applyLockedOps s wake).interruptedByRemovingOp
        · simp [h1, h2, h3, h4] at h
        · by_cases h5 : (applyLockedOps s wake).hasGLContext
          · simp [h1, h2, h3, h4, h5]
          · simp [h1, h2, h3, h4, h5] at h
    · simp [h1, h2]
  · simp [h1] at h

theorem applyLockedOp_keeps_dead_ctx (s : QState) (op : LockedOp)
    (h : s.hasGLContext = false) (hop : ∀ env, op ≠ LockedOp.drainOp env) :
    (applyLockedOp s op).hasGLContext = false := by
  cases op with
  | drainOp env => exact absurd rfl (hop env)
  | discardAllOp =>
      simp only [applyLockedOp]
      rfl
  | interruptOp flag =>
      simp only [applyLockedOp]
      exact h
  | fastEnqueue env renderInfo anw writeOk =>
      simp only [applyLockedOp]
      split
      · exact h
      · exact h
  | switchOp t =>
      simp only [applyLockedOp]
      unfold setTextureUploadType
      split
      · exact h
      · rfl

/-- C7, counterexample: switch the upload strategy while one entry is in
flight whose expected texture (id 5) is no longer owned by its tile (id 0);
the displaced entry's destination never receives a discard call — neither
from the switch itself nor from the following drain, whose ownership test
fails — and yet the first enqueue under the new strategy then succeeds.
Refutes "each displaced entry's destination receives a discard call before
the first enqueue under the new strategy succeeds". -/
theorem setTextureUploadType_claim7_counterexample :
    (getSlot (addItemInTransferQueue
        { backTexture := fun t => if t = 0 then some 5 else none,
          frontTexture := fun _ => none, owner := fun _ => none }
        { baseTile := 0 } .GpuUpload (mkTransferQueue true)) 0).status =
      .pendingBlit ∧
    (getSlot (addItemInTransferQueue
        { backTexture := fun t => if t = 0 then some 5 else none,
          frontTexture := fun _ => none, owner := fun _ => none }
        { baseTile := 0 } .GpuUpload (mkTransferQueue true)) 0).savedTilePtr =
      some 0 ∧
    Ev.discardBackTexture 0 ∉
      (setTextureUploadType .CpuUpload (addItemInTransferQueue
        { backTexture := fun t => if t = 0 then some 5 else none,
          frontTexture := fun _ => none, owner := fun _ => none }
        { baseTile := 0 } .GpuUpload (mkTransferQueue true))).2 ∧
    Ev.discardBackTexture 0 ∉
      (updateDirtyTiles
        { backTexture := fun t => if t = 0 then some 5 else none,
          frontTexture := fun _ => none, owner := fun _ => none }
        (setTextureUploadType .CpuUpload (addItemInTransferQueue
          { backTexture := fun t => if t = 0 then some 5 else none,
            frontTexture := fun _ => none, owner := fun _ => none }
          { baseTile := 0 } .GpuUpload (mkTransferQueue true))).1).2 ∧
    (tryUpdateQueueWithBitmap
      (updateDirtyTiles
        { backTexture := fun t => if t = 0 then some 5 else none,
          frontTexture := fun _ => none, owner := fun _ => none }
        (setTextureUploadType .CpuUpload (addItemInTransferQueue
          { backTexture := fun t => if t = 0 then some 5 else none,
            frontTexture := fun _ => none, owner := fun _ => none }
          { baseTile := 0 } .GpuUpload (mkTransferQueue true))).1).1
      [] { baseTile := 0 }
      { backTexture := fun t => if t = 0 then some 5 else none,
        frontTexture := fun _ => none, owner := fun _ => none }
      true true).1 = true := by
  refine ⟨by decide, by decide, by decide, by decide, by decide⟩

/-- C7, amended: a strategy switch with an unchanged kind modifies nothing;
with a changed kind it applies the full `setPendingDiscard` effect (every
`pendingBlit` slot flips to `pendingDiscard`, nothing remains `pendingBlit`,
side queue cleared, context marked not-live) before adopting the new default
kind, and never rewrites the kind already recorded in a queued entry.  No
enqueue succeeds while the context is not-live, and only a drain makes it
live again; the drain's discard resolution issues the destination-discard
call for every displaced entry whose expected texture is still owned by its
tile (entries whose ownership has moved get no call — the amendment). -/
theorem setTextureUploadType_claim7 :
    (∀ (t : TextureUploadType) (s : QState), s.currentUploadType = t →
       setTextureUploadType t s = (s, [])) ∧
    (∀ (t : TextureUploadType) (s : QState), s.currentUploadType ≠ t →
       (setTextureUploadType t s).1.currentUploadType = t ∧
       (setTextureUploadType t s).1.hasGLContext = false ∧
       (setTextureUploadType t s).1.pureColorTileQueue = [] ∧
       (∀ i, (getSlot s i).status = .pendingBlit →
          (getSlot (setTextureUploadType t s).1 i).status = .pendingDiscard) ∧
       (∀ i, (getSlot s i).status ≠ .pendingBlit →
          getSlot (setTextureUploadType t s).1 i = getSlot s i) ∧
       (∀ i, (getSlot (setTextureUploadType t s).1 i).uploadType =
          (getSlot s i).uploadType) ∧
       (∀ i, (getSlot (setTextureUploadType t s).1 i).status ≠ .pendingBlit)) ∧
    (∀ (s : QState) (wake : List LockedOp) (renderInfo : TileRenderInfo)
       (env : TileEnv) (anw writeOk : Bool),
       (tryUpdateQueueWithBitmap s wake renderInfo env anw writeOk).1 = true →
       (readyForUpdate s wake).2.hasGLContext = true) ∧
    (∀ (s : QState) (op : LockedOp), s.hasGLContext = false →
       (∀ env, op ≠ LockedOp.drainOp env) →
       (applyLockedOp s op).hasGLContext = false) ∧
    (∀ (env : TileEnv) (s : QState) (i tile texture : Nat),
       i < s.transferQueueSize →
       (getSlot s i).status = .pendingDiscard →
       (getSlot s i).savedTilePtr = some tile →
       (getSlot s i).savedTileTexturePtr = some texture →
       env.owner texture = some tile →
       Ev.discardBackTexture tile ∈ (updateDirtyTiles env s).2) := by
  refine ⟨?_, ?_, ?_, ?_, ?_⟩
  · intro t s h
    unfold setTextureUploadType
    rw [if_pos h]
  · intro t s h
    have hst : (setTextureUploadType t s).1 =
        { (setPendingDiscard s).1 with currentUploadType := t } := by
      unfold setTextureUploadType
      rw [if_neg h]
    have hslot : ∀ i, getSlot (setTextureUploadType t s).1 i =
        getSlot (setPendingDiscard s).1 i := by
      intro i
      rw [hst]
      exact getSlot_eq_of_ring_eq rfl i
    refine ⟨by rw [hst], by rw [hst]; rfl, by rw [hst]; rfl, ?_, ?_, ?_, ?_⟩
    · intro i hi
      rw [hslot i, setPendingDiscard_slot_map s i]
      simp [hi]
    · intro i hi
      rw [hslot i, setPendingDiscard_slot_map s i]
      simp [hi]
    · intro i
      rw [hslot i, setPendingDiscard_slot_map s i]
      by_cases hi : (getSlot s i).status = .pendingBlit <;> simp [hi]
    · intro i
      rw [hslot i, setPendingDiscard_slot_map s i]
      by_cases hi : (getSlot s i).status = .pendingBlit <;> simp [hi]
  · intro s wake renderInfo env anw writeOk h
    exact readyForUpdate_true_ctx s wake
      (tryUpdate_true_ready s wake renderInfo env anw writeOk h)
  · exact applyLockedOp_keeps_dead_ctx
  · intro env s i tile texture hi hst htile htex hown
    exact updateDirtyTiles_discard_event env s i tile texture hi hst htile htex hown

/-- Closed instance of `setTextureUploadType_claim7`: switching the fresh
queue to the direct-upload strategy marks the context not-live, and switching
with the unchanged kind does nothing. -/
theorem setTextureUploadType_claim7_witness :
    setTextureUploadType .GpuUpload (mkTransferQueue true) = (mkTransferQueue true, []) ∧
    (setTextureUploadType .CpuUpload (mkTransferQueue true)).1.hasGLContext = false := by
  constructor
  · exact setTextureUploadType_claim7.1 .GpuUpload (mkTransferQueue true) (by decide)
  · exact (setTextureUploadType_claim7.2.1 .CpuUpload (mkTransferQueue true)
      (by decide)).2.1

/-! ### Counting the shared-surface advances (`updateTexImage`) -/

theorem count_ute_discardEvs (env : TileEnv) (d : TileTransferData) :
    (discardEvs env d).count Ev.updateTexImage = 0 := by
  unfold discardEvs
  rcases d.savedTilePtr with _ | tile
  · rfl
  · rcases d.savedTileTexturePtr with _ | texture
    · rfl
    · by_cases h : env.owner texture = some tile <;> simp [h]

theorem cleanupStep_count_ute (env : TileEnv) (s : QState) (i : Nat) :
    (cleanupStep env s i).2.count Ev.updateTexImage =
      (if (getSlot s i).status = .pendingDiscard ∧
          (getSlot s i).uploadType = .GpuUpload then 1 else 0) := by
  unfold cleanupStep
  by_cases h1 : (getSlot s i).status = .pendingDiscard
  · rw [if_pos h1]
    by_cases h2 : (getSlot s i).uploadType = .GpuUpload
    · simp [uteEvs, h1, h2, List.count_append, count_ute_discardEvs]
    · simp [uteEvs, h1, h2, List.count_append, count_ute_discardEvs]
  · simp [h1]

theorem getSlot_cleanupFold_of_not_discard (env : TileEnv) (idxs : List Nat)
    (s : QState) (j : Nat) (h : (getSlot s j).status ≠ .pendingDiscard) :
    getSlot (cleanupFold env idxs s).1 j = getSlot s j := by
  induction idxs generalizing s with
  | nil => rfl
  | cons i rest ih =>
    have hstep : getSlot (cleanupStep env s i).1 j = getSlot s j := by
      by_cases hij : j = i
      · subst hij
        unfold cleanupStep
        rw [if_neg h]
      · exact getSlot_cleanupStep_ne env s i j hij
    simp only [cleanupFold]
    rw [ih (cleanupStep env s i).1 (by rw [hstep]; exact h), hstep]

theorem cleanupStep_keeps_not_blit (env : TileEnv) (s : QState) (i j : Nat)
    (h : (getSlot s j).status ≠ .pendingBlit) :
    (getSlot (cleanupStep env s i).1 j).status ≠ .pendingBlit := by
  by_cases hij : j = i
  · subst hij
    rcases cleanupStep_state_cases env s j with hc | hc <;> rw [hc]
    · exact h
    · by_cases hlen : j < s.transferQueue.length
      · rw [getSlot_setSlot_self s j _ hlen]
        simp [discardedSlot]
      · have heq : getSlot (setSlot s j (discardedSlot (getSlot s j))) j =
            getSlot s j := by
          apply getSlot_eq_of_ring_eq
          show s.transferQueue.set j _ = s.transferQueue
          exact List.set_eq_of_length_le (by omega)
        rw [heq]
        exact h
  · rw [getSlot_cleanupStep_ne env s i j hij]
    exact h

theorem cleanupFold_keeps_not_blit (env : TileEnv) (idxs : List Nat) (s : QState)
    (j : Nat) (h : (getSlot s j).status ≠ .pendingBlit) :
    (getSlot (cleanupFold env idxs s).1 j).status ≠ .pendingBlit := by
  induction idxs generalizing s with
  | nil => exact h
  | cons i rest ih =>
    simp only [cleanupFold]
    exact ih (cleanupStep env s i).1 (cleanupStep_keeps_not_blit env s i j h)

theorem cleanupFold_count_ute (env : TileEnv) (idxs : List Nat) (s : QState)
    (hnd : idxs.Nodup) :
    (cleanupFold env idxs s).2.count Ev.updateTexImage =
      idxs.countP (fun i => decide ((getSlot s i).status = .pendingDiscard ∧
        (getSlot s i).uploadType = .GpuUpload)) := by
  induction idxs generalizing s with
  | nil => rfl
  | cons i rest ih =>
    simp only [cleanupFold, List.count_append, List.countP_cons]
    have hrest : (cleanupFold env rest (cleanupStep env s i).1).2.count
        Ev.updateTexImage =
        rest.countP (fun i' => decide ((getSlot s i').status = .pendingDiscard ∧
          (getSlot s i').uploadType = .GpuUpload)) := by
      rw [ih (cleanupStep env s i).1 (List.nodup_cons.mp hnd).2]
      apply List.countP_congr
      intro j hj
      have hne : j ≠ i := by
        rintro rfl
        exact (List.nodup_cons.mp hnd).1 hj
      rw [getSlot_cleanupStep_ne env s i j hne]
    rw [hrest, cleanupStep_count_ute]
    by_cases hp : (getSlot s i).status = .pendingDiscard ∧
        (getSlot s i).uploadType = .GpuUpload
    · simp [hp]
      omega
    · simp [hp]

theorem count_ute_cpuUploadEvs (index tex : Nat) :
    (cpuUploadEvs index tex).count Ev.updateTexImage = 0 := rfl

theorem count_ute_gpuUploadEvs (index tex : Nat) (usedFbo : Bool) :
    (gpuUploadEvs index tex usedFbo).count Ev.updateTexImage = 0 := by
  cases usedFbo <;> rfl

theorem processSlot_count_ute (env : TileEnv) (s : QState) (i : Nat) (fbo : Bool) :
    (processSlot env s i fbo).2.2.count Ev.updateTexImage =
      (if (getSlot s i).status = .pendingBlit ∧
          (getSlot s i).uploadType = .GpuUpload then 1 else 0) := by
  unfold processSlot
  by_cases h1 : (getSlot s i).status = .pendingBlit
  · rw [if_pos h1]
    by_cases hobs : checkObsolete env (getSlot s i)
    · by_cases h2 : (getSlot s i).uploadType = .GpuUpload <;>
        simp [hobs, uteEvs, h1, h2, List.count_append]
    · cases hbt : (getSlot s i).savedTilePtr.bind env.backTexture with
      | none =>
        by_cases h2 : (getSlot s i).uploadType = .GpuUpload <;>
          simp [hobs, hbt, uteEvs, h1, h2, List.count_append]
      | some tex =>
        by_cases h2 : (getSlot s i).uploadType = .CpuUpload
        · have h2' : ¬(getSlot s i).uploadType = .GpuUpload := by
            rw [h2]; intro hc; cases hc
          simp [hobs, hbt, h2, uteEvs, h1, h2', List.count_append,
            count_ute_cpuUploadEvs]
        · have h2' : (getSlot s i).uploadType = .GpuUpload := by
            cases hu : (getSlot s i).uploadType
            · exact absurd hu h2
            · rfl
          simp [hobs, hbt, h2, uteEvs, h1, h2', List.count_append,
            count_ute_gpuUploadEvs]
  · simp [h1]

theorem processSlot_events_of_slot (env : TileEnv) {s s' : QState} (i : Nat)
    (fbo : Bool) (h : getSlot s i = getSlot s' i) :
    (processSlot env s i fbo).2.2 = (processSlot env s' i fbo).2.2 := by
  unfold processSlot
  rw [h]
  by_cases h1 : (getSlot s' i).status = .pendingBlit
  · by_cases hobs : checkObsolete env (getSlot s' i)
    · simp [h1, hobs]
    · cases hbt : (getSlot s' i).savedTilePtr.bind env.backTexture with
      | none => simp [h1, hobs, hbt]
      | some tex =>
        by_cases h2 : (getSlot s' i).uploadType = .CpuUpload <;>
          simp [h1, hobs, hbt, h2]
  · simp [h1]

theorem processFold_count_ute (env : TileEnv) (idxs : List Nat) (fbo : Bool)
    (s : QState) (hnd : idxs.Nodup) :
    (processFold env idxs fbo s).2.2.count Ev.updateTexImage =
      idxs.countP (fun i => decide ((getSlot s i).status = .pendingBlit ∧
        (getSlot s i).uploadType = .GpuUpload)) := by
  induction idxs generalizing fbo s with
  | nil => rfl
  | cons i rest ih =>
    simp only [processFold, List.count_append, List.countP_cons]
    have hrest : (processFold env rest (processSlot env s i fbo).2.1
        (processSlot env s i fbo).1).2.2.count Ev.updateTexImage =
        rest.countP (fun i' => decide ((getSlot s i').status = .pendingBlit ∧
          (getSlot s i').uploadType = .GpuUpload)) := by
      rw [ih (processSlot env s i fbo).2.1 (processSlot env s i fbo).1
        (List.nodup_cons.mp hnd).2]
      apply List.countP_congr
      intro j hj
      have hne : j ≠ i := by
        rintro rfl
        exact (List.nodup_cons.mp hnd).1 hj
      rw [getSlot_processSlot_ne env s i j fbo hne]
    rw [hrest, processSlot_count_ute]
    by_cases hp : (getSlot s i).status = .pendingBlit ∧
        (getSlot s i).uploadType = .GpuUpload
    · simp [hp]
      omega
    · simp [hp]

theorem pureColorStep_mem (env : TileEnv) (d : TileTransferData) (e : Ev)
    (h : e ∈ pureColorStep env d) :
    (∃ t, e = .setPureColor t) ∨ (∃ t, e = .transferComplete t) := by
  unfold pureColorStep at h
  by_cases h1 : d.status = .pendingBlit
  · rw [if_pos h1] at h
    by_cases hobs : checkObsolete env d
    · simp [hobs] at h
    · simp only [hobs, Bool.false_eq_true, if_false] at h
      cases hbt : d.savedTilePtr.bind env.backTexture with
      | none => rw [hbt] at h; cases h
      | some tex =>
        rw [hbt] at h
        rcases List.mem_cons.mp h with rfl | h2
        · exact Or.inl ⟨tex, rfl⟩
        · rcases List.mem_cons.mp h2 with rfl | h3
          · exact Or.inr ⟨tex, rfl⟩
          · cases h3
  · rw [if_neg h1] at h
    cases h

theorem count_ute_pureColor_flatten (env : TileEnv) (l : List TileTransferData) :
    ((l.map (pureColorStep env)).flatten.count Ev.updateTexImage) = 0 := by
  rw [List.count_eq_zero]
  intro hmem
  rcases List.mem_flatten.mp hmem with ⟨evs, hevs, hin⟩
  rcases List.mem_map.mp hevs with ⟨d, _, rfl⟩
  rcases pureColorStep_mem env d _ hin with ⟨t, ht⟩ | ⟨t, ht⟩ <;> cases ht

theorem countP_add_of_disjoint (l : List Nat) (p q r : Nat → Bool)
    (h : ∀ a ∈ l, (if p a then 1 else 0) + (if q a then 1 else 0) =
      (if r a then 1 else 0)) :
    l.countP p + l.countP q = l.countP r := by
  induction l with
  | nil => rfl
  | cons a rest ih =>
    simp only [List.countP_cons]
    have ha := h a (List.mem_cons_self ..)
    have hrest := ih fun a' ha' => h a' (List.mem_cons_of_mem _ ha')
    by_cases hp : p a <;> by_cases hq : q a <;> by_cases hr : r a <;>
      simp [hp, hq, hr] at ha ⊢ <;> omega

/-- C4: during one drain cycle (which begins with discard resolution), the
shared surface's consumer read pointer (`updateTexImage`) is advanced exactly
once for every ring slot whose upload kind is `GpuUpload` and whose status is
`pendingBlit` or `pendingDiscard` at entry — stale or not — and never for a
`CpuUpload` slot or a side-queue entry. -/
theorem updateDirtyTiles_claim4 (env : TileEnv) (s : QState)
    (hn : 0 < s.transferQueueSize) :
    (updateDirtyTiles env s).2.count Ev.updateTexImage =
      (List.range s.transferQueueSize).countP (fun i =>
        decide ((getSlot s i).uploadType = .GpuUpload ∧
          ((getSlot s i).status = .pendingBlit ∨
           (getSlot s i).status = .pendingDiscard))) := by
  have hstart : getNextTransferQueueIndex s < s.transferQueueSize := Nat.mod_lt _ hn
  have hm := midState_frame env s
  -- the two loops traverse the same index list
  have hidxs : walkIndexList (midState env s).transferQueueSize
      (getNextTransferQueueIndex (midState env s)) (midState env s).transferQueueSize =
      walkIndexList s.transferQueueSize (getNextTransferQueueIndex s)
        s.transferQueueSize := by
    unfold getNextTransferQueueIndex
    rw [hm.1, hm.2.1]
  have hnd := walkIndexList_nodup s.transferQueueSize (getNextTransferQueueIndex s)
    s.transferQueueSize (Nat.le_refl _)
  -- cleanup part
  have hclean : (cleanupPendingDiscard env s).2.count Ev.updateTexImage =
      (walkIndexList s.transferQueueSize (getNextTransferQueueIndex s)
        s.transferQueueSize).countP (fun i =>
          decide ((getSlot s i).status = .pendingDiscard ∧
            (getSlot s i).uploadType = .GpuUpload)) := by
    unfold cleanupPendingDiscard
    rw [cleanupLoop_eq_fold env s.transferQueueSize s.transferQueueSize
      (getNextTransferQueueIndex s) s hstart]
    exact cleanupFold_count_ute env _ s hnd
  -- walk part
  have hstart2 : getNextTransferQueueIndex (midState env s) <
      (midState env s).transferQueueSize := by
    unfold getNextTransferQueueIndex
    rw [hm.1]
    exact Nat.mod_lt _ hn
  have hwalk : (walkResult env s).2.2.count Ev.updateTexImage =
      (walkIndexList s.transferQueueSize (getNextTransferQueueIndex s)
        s.transferQueueSize).countP (fun i =>
          decide ((getSlot s i).status = .pendingBlit ∧
            (getSlot s i).uploadType = .GpuUpload)) := by
    unfold walkResult
    rw [walkLoop_eq_fold env _ _ _ false _ hstart2, hidxs,
      processFold_count_ute env _ false (midState env s) hnd]
    apply List.countP_congr
    intro j _
    have hj : getSlot (midState env s) j = getSlot (cleanupPendingDiscard env s).1 j :=
      getSlot_midState env s j
    by_cases hb : (getSlot s j).status = .pendingBlit
    · have : getSlot (midState env s) j = getSlot s j := by
        rw [hj]
        unfold cleanupPendingDiscard
        rw [cleanupLoop_eq_fold env s.transferQueueSize s.transferQueueSize
          (getNextTransferQueueIndex s) s hstart]
        exact getSlot_cleanupFold_of_not_discard env _ s j (by rw [hb]; simp)
      rw [this]
    · have hnb : (getSlot (midState env s) j).status ≠ .pendingBlit := by
        rw [hj]
        unfold cleanupPendingDiscard
        rw [cleanupLoop_eq_fold env s.transferQueueSize s.transferQueueSize
          (getNextTransferQueueIndex s) s hstart]
        exact cleanupFold_keeps_not_blit env _ s j hb
      simp [hb, hnb]
  -- assemble
  rw [updateDirtyTiles_decomp]
  simp only [List.count_append]
  rw [hclean, count_ute_pureColor_flatten env, hwalk]
  have hfbo : (if (walkResult env s).2.1 then [Ev.restoreGLState]
      else ([] : List Ev)).count Ev.updateTexImage = 0 := by
    by_cases hf : (walkResult env s).2.1 <;> simp [hf]
  rw [hfbo]
  have hsig : ([Ev.signalCond] : List Ev).count Ev.updateTexImage = 0 := rfl
  rw [hsig]
  have hsum := countP_add_of_disjoint
    (walkIndexList s.transferQueueSize (getNextTransferQueueIndex s) s.transferQueueSize)
    (fun i => decide ((getSlot s i).status = .pendingDiscard ∧
      (getSlot s i).uploadType = .GpuUpload))
    (fun i => decide ((getSlot s i).status = .pendingBlit ∧
      (getSlot s i).uploadType = .GpuUpload))
    (fun i => decide ((getSlot s i).uploadType = .GpuUpload ∧
      ((getSlot s i).status = .pendingBlit ∨ (getSlot s i).status = .pendingDiscard)))
    (by
      intro a _
      by_cases h1 : (getSlot s a).status = .pendingDiscard <;>
        by_cases h2 : (getSlot s a).status = .pendingBlit <;>
        by_cases h3 : (getSlot s a).uploadType = .GpuUpload <;>
        simp [h1, h2, h3])
  have hperm := (walkIndexList_perm_range s.transferQueueSize
    (getNextTransferQueueIndex s) hn hstart).countP_eq
    (fun i => decide ((getSlot s i).uploadType = .GpuUpload ∧
      ((getSlot s i).status = .pendingBlit ∨ (getSlot s i).status = .pendingDiscard)))
  omega

/-- Closed instance of `updateDirtyTiles_claim4`: with one `GpuUpload` slot
pending discard, one `GpuUpload` slot pending upload and one `CpuUpload` slot
pending upload, the drain advances the shared surface exactly twice. -/
theorem updateDirtyTiles_claim4_witness :
    (updateDirtyTiles envNoBack
      (addItemInTransferQueue envNoBack { baseTile := 2 } .CpuUpload
        (addItemInTransferQueue envNoBack { baseTile := 1 } .GpuUpload
          (setPendingDiscard (addItemInTransferQueue envNoBack { baseTile := 0 }
            .GpuUpload (mkTransferQueue false))).1))).2.count Ev.updateTexImage = 2 := by
  rw [updateDirtyTiles_claim4 envNoBack _ (by decide)]
  decide

/-! ### Per-slot ordering: the slot is cleared before its GPU writes -/

/-- The GPU-write events of the ring walk that target slot `i`: destination
texture materialization, direct bitmap upload, blit. -/
def isGpuWriteFor (i : Nat) : Ev → Bool
  | .requireTexture j => i == j
  | .bitmapUpload j => i == j
  | .blit j => i == j
  | _ => false

/-- Left-to-right scan: no GPU write for slot `i` occurs before the first
`clearSlot i` event. -/
def clearBeforeWrites (i : Nat) : List Ev → Bool
  | [] => true
  | e :: rest =>
      if e = Ev.clearSlot i then true
      else !isGpuWriteFor i e && clearBeforeWrites i rest

theorem clearBeforeWrites_cons (i : Nat) (e : Ev) (rest : List Ev) :
    clearBeforeWrites i (e :: rest) =
      if e = Ev.clearSlot i then true
      else !isGpuWriteFor i e && clearBeforeWrites i rest := rfl

theorem clearBeforeWrites_spec (i : Nat) : ∀ (l1 : List Ev) (evs l2 : List Ev) (e : Ev),
    clearBeforeWrites i evs = true → evs = l1 ++ e :: l2 →
    isGpuWriteFor i e = true → Ev.clearSlot i ∈ l1 := by
  intro l1
  induction l1 with
  | nil =>
    intro evs l2 e hcbw heq hw
    subst heq
    rw [List.nil_append, clearBeforeWrites_cons] at hcbw
    by_cases hc : e = Ev.clearSlot i
    · subst hc
      simp [isGpuWriteFor] at hw
    · rw [if_neg hc] at hcbw
      rcases Bool.and_eq_true .. |>.mp hcbw with ⟨hnw, _⟩
      rw [hw] at hnw
      cases hnw
  | cons a l1' ih =>
    intro evs l2 e hcbw heq hw
    subst heq
    rw [List.cons_append, clearBeforeWrites_cons] at hcbw
    by_cases hc : a = Ev.clearSlot i
    · rw [hc]
      exact List.mem_cons_self ..
    · rw [if_neg hc] at hcbw
      rcases Bool.and_eq_true .. |>.mp hcbw with ⟨_, hrest⟩
      exact List.mem_cons_of_mem _ (ih _ l2 e hrest rfl hw)

theorem clearBeforeWrites_append (i : Nat) (l1 l2 : List Ev)
    (h1 : clearBeforeWrites i l1 = true) (h2 : clearBeforeWrites i l2 = true) :
    clearBeforeWrites i (l1 ++ l2) = true := by
  induction l1 with
  | nil => exact h2
  | cons a rest ih =>
    rw [clearBeforeWrites_cons] at h1
    rw [List.cons_append, clearBeforeWrites_cons]
    by_cases hc : a = Ev.clearSlot i
    · rw [if_pos hc]
    · rw [if_neg hc] at h1 ⊢
      rcases Bool.and_eq_true .. |>.mp h1 with ⟨hnw, hrest⟩
      rw [Bool.and_eq_true]
      exact ⟨hnw, ih hrest⟩

theorem clearBeforeWrites_of_no_writes (i : Nat) (l : List Ev)
    (h : ∀ e ∈ l, isGpuWriteFor i e = false) : clearBeforeWrites i l = true := by
  induction l with
  | nil => rfl
  | cons a rest ih =>
    rw [clearBeforeWrites_cons]
    by_cases hc : a = Ev.clearSlot i
    · rw [if_pos hc]
    · rw [if_neg hc, Bool.and_eq_true]
      refine ⟨?_, ih fun e he => h e (List.mem_cons_of_mem _ he)⟩
      rw [h a (List.mem_cons_self ..)]
      rfl

theorem cleanupStep_no_writes (env : TileEnv) (s : QState) (j i : Nat) :
    ∀ e ∈ (cleanupStep env s j).2, isGpuWriteFor i e = false := by
  intro e he
  unfold cleanupStep at he
  split at he
  · rcases List.mem_append.mp he with h1 | h2
    · rcases List.mem_append.mp h1 with ha | hb
      · unfold uteEvs at ha
        split at ha
        · rcases List.mem_singleton.mp ha with rfl
          rfl
        · cases ha
      · unfold discardEvs at hb
        split at hb
        · split at hb
          · rcases List.mem_singleton.mp hb with rfl
            rfl
          · cases hb
        · cases hb
    · rcases List.mem_singleton.mp h2 with rfl
      rfl
  · cases he

theorem cleanupLoop_no_writes (env : TileEnv) (n : Nat) :
    ∀ (k index : Nat) (s : QState) (i : Nat),
      ∀ e ∈ (cleanupLoop env n k index s).2, isGpuWriteFor i e = false := by
  intro k
  induction k with
  | zero => intro index s i e he; cases he
  | succ k ih =>
    intro index s i e he
    simp only [cleanupLoop] at he
    rcases List.mem_append.mp he with h1 | h2
    · exact cleanupStep_no_writes env s index i e h1
    · exact ih ((index + 1) % n) (cleanupStep env s index).1 i e h2

theorem cbw_uteEvs_clear (i : Nat) (d : TileTransferData) (tail : List Ev) :
    clearBeforeWrites i (uteEvs d ++ (Ev.clearSlot i :: tail)) = true := by
  by_cases h : d.uploadType = .GpuUpload <;>
    simp [uteEvs, h, clearBeforeWrites, isGpuWriteFor]

/-- Every nonempty per-slot trace of the walk starts with the shared-surface
advance (if any) immediately followed by the `clearSlot` event. -/
theorem processSlot_events_shape (env : TileEnv) (s : QState) (j : Nat) (fbo : Bool) :
    (processSlot env s j fbo).2.2 = [] ∨
    ∃ tail, (processSlot env s j fbo).2.2 =
      uteEvs (getSlot s j) ++ (Ev.clearSlot j :: tail) := by
  unfold processSlot
  split
  · split
    · exact Or.inr ⟨[], rfl⟩
    · split
      · rename_i tex _
        split
        · exact Or.inr ⟨cpuUploadEvs j tex, by rw [List.append_assoc]; rfl⟩
        · exact Or.inr ⟨gpuUploadEvs j tex fbo, by rw [List.append_assoc]; rfl⟩
      · exact Or.inr ⟨[], rfl⟩
  · exact Or.inl rfl

/-- The only events a walk iteration on slot `j` can emit. -/
theorem processSlot_events_kinds (env : TileEnv) (s : QState) (j : Nat) (fbo : Bool) :
    ∀ e ∈ (processSlot env s j fbo).2.2,
      e = Ev.updateTexImage ∨ e = Ev.clearSlot j ∨ e = Ev.requireTexture j ∨
      e = Ev.bitmapUpload j ∨ e = Ev.blit j ∨ e = Ev.saveGLState ∨
      (∃ t, e = Ev.markNotPure t) ∨ (∃ t, e = Ev.transferComplete t) := by
  intro e he
  unfold processSlot at he
  split at he
  · split at he
    · simp only [uteEvs, List.mem_append] at he
      rcases he with ha | hb
      · split at ha <;> simp at ha
        subst ha
        exact Or.inl rfl
      · simp at hb
        subst hb
        exact Or.inr (Or.inl rfl)
    · split at he
      · split at he
        · simp only [uteEvs, cpuUploadEvs, List.mem_append, List.mem_cons,
            List.not_mem_nil, or_false] at he
          rcases he with (ha | hb) | rfl | rfl | rfl | rfl
          · split at ha <;> simp at ha
            subst ha
            exact Or.inl rfl
          · subst hb
            exact Or.inr (Or.inl rfl)
          · exact Or.inr (Or.inr (Or.inl rfl))
          · exact Or.inr (Or.inr (Or.inr (Or.inl rfl)))
          · exact Or.inr (Or.inr (Or.inr (Or.inr (Or.inr (Or.inr (Or.inl ⟨_, rfl⟩))))))
          · exact Or.inr (Or.inr (Or.inr (Or.inr (Or.inr (Or.inr (Or.inr ⟨_, rfl⟩))))))
        · simp only [uteEvs, gpuUploadEvs, List.mem_append, List.mem_cons,
            List.not_mem_nil, or_false] at he
          rcases he with (ha | hb) | (rfl | hsave) | rfl | rfl | rfl
          · split at ha <;> simp at ha
            subst ha
            exact Or.inl rfl
          · subst hb
            exact Or.inr (Or.inl rfl)
          · exact Or.inr (Or.inr (Or.inl rfl))
          · split at hsave <;> simp at hsave
            subst hsave
            exact Or.inr (Or.inr (Or.inr (Or.inr (Or.inr (Or.inl rfl)))))
          · exact Or.inr (Or.inr (Or.inr (Or.inr (Or.inl rfl))))
          · exact Or.inr (Or.inr (Or.inr (Or.inr (Or.inr (Or.inr (Or.inl ⟨_, rfl⟩))))))
          · exact Or.inr (Or.inr (Or.inr (Or.inr (Or.inr (Or.inr (Or.inr ⟨_, rfl⟩))))))
      · simp only [uteEvs, List.mem_append] at he
        rcases he with ha | hb
        · split at ha <;> simp at ha
          subst ha
          exact Or.inl rfl
        · simp at hb
          subst hb
          exact Or.inr (Or.inl rfl)
  · cases he

theorem processSlot_cbw (env : TileEnv) (s : QState) (j : Nat) (fbo : Bool)
    (i : Nat) : clearBeforeWrites i (processSlot env s j fbo).2.2 = true := by
  by_cases hij : i = j
  · subst hij
    rcases processSlot_events_shape env s i fbo with h | ⟨tail, h⟩
    · rw [h]
      rfl
    · rw [h]
      exact cbw_uteEvs_clear i _ tail
  · apply clearBeforeWrites_of_no_writes
    intro e he
    rcases processSlot_events_kinds env s j fbo e he with
      rfl | rfl | rfl | rfl | rfl | rfl | ⟨t, rfl⟩ | ⟨t, rfl⟩
    · rfl
    · rfl
    · simp [isGpuWriteFor, hij]
    · simp [isGpuWriteFor, hij]
    · simp [isGpuWriteFor, hij]
    · rfl
    · rfl
    · rfl

theorem walkLoop_cbw (env : TileEnv) (n : Nat) :
    ∀ (k index : Nat) (fbo : Bool) (s : QState) (i : Nat),
      clearBeforeWrites i (walkLoop env n k index fbo s).2.2 = true := by
  intro k
  induction k with
  | zero => intro _ _ _ _; rfl
  | succ k ih =>
    intro index fbo s i
    simp only [walkLoop]
    exact clearBeforeWrites_append i _ _ (processSlot_cbw env s index fbo i)
      (ih ((index + 1) % n) (processSlot env s index fbo).2.1
        (processSlot env s index fbo).1 i)

theorem updateDirtyTiles_cbw (env : TileEnv) (s : QState) (i : Nat) :
    clearBeforeWrites i (updateDirtyTiles env s).2 = true := by
  rw [updateDirtyTiles_decomp]
  refine clearBeforeWrites_append i _ _ (clearBeforeWrites_append i _ _
    (clearBeforeWrites_append i _ _ (clearBeforeWrites_append i _ _ ?_ ?_) ?_) ?_) ?_
  · exact clearBeforeWrites_of_no_writes i _
      (cleanupLoop_no_writes env s.transferQueueSize s.transferQueueSize
        (getNextTransferQueueIndex s) s i)
  · apply clearBeforeWrites_of_no_writes
    intro e he
    rcases List.mem_flatten.mp he with ⟨evs, hevs, hin⟩
    rcases List.mem_map.mp hevs with ⟨d, _, rfl⟩
    rcases pureColorStep_mem env d _ hin with ⟨t, rfl⟩ | ⟨t, rfl⟩ <;> rfl
  · exact walkLoop_cbw env _ _ _ false _ i
  · apply clearBeforeWrites_of_no_writes
    intro e he
    split at he
    · rcases List.mem_singleton.mp he with rfl; rfl
    · cases he
  · apply clearBeforeWrites_of_no_writes
    intro e he
    rcases List.mem_singleton.mp he with rfl
    rfl

/-- Environment in which tile 0's current back texture is texture 7. -/
def envBack7 : TileEnv :=
  { backTexture := fun t => if t = 0 then some 7 else none
    frontTexture := fun _ => none
    owner := fun _ => none }

/-- C8, counterexample: the walk clears a processed slot's status and its
destination (tile) pointer, but never releases the slot's captured texture
reference — after a drain that blitted slot 0 (a GPU write happened for it),
the slot is `emptyItem` with a null tile pointer yet still holds
`savedTileTexturePtr = 7`.  Refutes "its captured references are released
before any GPU write" as stated, since that reference is not released at
all. -/
theorem updateDirtyTiles_claim8_counterexample :
    Ev.blit 0 ∈ (updateDirtyTiles envBack7
      (addItemInTransferQueue envBack7 { baseTile := 0 } .GpuUpload
        (mkTransferQueue true))).2 ∧
    (getSlot (updateDirtyTiles envBack7
      (addItemInTransferQueue envBack7 { baseTile := 0 } .GpuUpload
        (mkTransferQueue true))).1 0).status = .emptyItem ∧
    (getSlot (updateDirtyTiles envBack7
      (addItemInTransferQueue envBack7 { baseTile := 0 } .GpuUpload
        (mkTransferQueue true))).1 0).savedTilePtr = none ∧
    (getSlot (updateDirtyTiles envBack7
      (addItemInTransferQueue envBack7 { baseTile := 0 } .GpuUpload
        (mkTransferQueue true))).1 0).savedTileTexturePtr = some 7 := by
  refine ⟨by decide, by decide, by decide, by decide⟩

/-- C8, amended: during a drain cycle, for every slot processed as
`pendingBlit` the slot is cleared — its status set to `emptyItem` and its
destination (tile) pointer nulled, the `clearSlot` event — before any GPU
write for that slot (texture materialization, direct bitmap upload, or blit)
is performed; no GPU write for a slot ever precedes that slot being cleared.
(The slot's expected-texture pointer is left in place by the walk; only
discard resolution clears it.) -/
theorem updateDirtyTiles_claim8 (env : TileEnv) (s : QState) (i : Nat)
    (l1 l2 : List Ev) (e : Ev)
    (heq : (updateDirtyTiles env s).2 = l1 ++ e :: l2)
    (hw : isGpuWriteFor i e = true) :
    Ev.clearSlot i ∈ l1 :=
  clearBeforeWrites_spec i l1 _ l2 e (updateDirtyTiles_cbw env s i) heq hw

/-- Closed instance of `updateDirtyTiles_claim8`: in a drain that uploads a
live direct-upload slot, the destination-texture materialization for slot 0
is preceded by the clearing of slot 0. -/
theorem updateDirtyTiles_claim8_witness :
    Ev.clearSlot 0 ∈ [Ev.clearSlot 0] :=
  updateDirtyTiles_claim8 envBack7
    (addItemInTransferQueue envBack7 { baseTile := 0 } .CpuUpload
      (mkTransferQueue true)) 0
    [Ev.clearSlot 0]
    [Ev.bitmapUpload 0, Ev.markNotPure 7, Ev.transferComplete 7, Ev.signalCond]
    (Ev.requireTexture 0) (by decide) (by decide)

/-! ### Ordering of a drain cycle (claim 9) -/

/-- The GPU-upload work of the ring walk: destination-texture requirement,
bitmap upload, blit, GL state save. -/
def isUploadWrite : Ev → Bool
  | .requireTexture _ => true
  | .bitmapUpload _ => true
  | .blit _ => true
  | .saveGLState => true
  | _ => false

/-- `true` unless the event is the side queue's pure-color write. -/
def notSetPure : Ev → Bool
  | .setPureColor _ => false
  | _ => true

/-- Scan: after the first upload write, no side-queue (pure-color) event may
follow — i.e. all side-queue events precede all upload writes. -/
def noSideAfterWrite : List Ev → Bool
  | [] => true
  | e :: rest =>
      if isUploadWrite e = true then rest.all notSetPure else noSideAfterWrite rest

theorem noSideAfterWrite_spec : ∀ (l1 l : List Ev) (t : Nat) (l2 : List Ev),
    noSideAfterWrite l = true → l = l1 ++ Ev.setPureColor t :: l2 →
    ∀ e ∈ l1, isUploadWrite e = false := by
  intro l1
  induction l1 with
  | nil =>
    intro l t l2 _ _ e he
    cases he
  | cons a l1' ih =>
    intro l t l2 hns heq e he
    subst heq
    rw [List.cons_append] at hns
    unfold noSideAfterWrite at hns
    by_cases hw : isUploadWrite a = true
    · rw [if_pos hw] at hns
      exfalso
      have hmem : Ev.setPureColor t ∈ l1' ++ Ev.setPureColor t :: l2 :=
        List.mem_append.mpr (Or.inr (List.mem_cons_self ..))
      have := List.all_eq_true.mp hns _ hmem
      cases this
    · rw [if_neg hw] at hns
      rcases List.mem_cons.mp he with rfl | he'
      · simpa using hw
      · exact ih _ t l2 hns rfl e he'

theorem noSideAfterWrite_of_all_notSetPure (l : List Ev)
    (h : l.all notSetPure = true) : noSideAfterWrite l = true := by
  induction l with
  | nil => rfl
  | cons a rest ih =>
    unfold noSideAfterWrite
    rcases List.all_cons .. ▸ h with hand
    rcases Bool.and_eq_true .. |>.mp hand with ⟨_, hrest⟩
    by_cases hw : isUploadWrite a = true
    · rw [if_pos hw]
      exact hrest
    · rw [if_neg hw]
      exact ih hrest

theorem noSideAfterWrite_append_left (A B : List Ev)
    (hA : ∀ e ∈ A, isUploadWrite e = false)
    (hB : noSideAfterWrite B = true) : noSideAfterWrite (A ++ B) = true := by
  induction A with
  | nil => exact hB
  | cons a rest ih =>
    rw [List.cons_append]
    unfold noSideAfterWrite
    rw [if_neg (by rw [hA a (List.mem_cons_self ..)]; simp)]
    exact ih fun e he => hA e (List.mem_cons_of_mem _ he)

theorem cleanupStep_events_kinds (env : TileEnv) (s : QState) (j : Nat) :
    ∀ e ∈ (cleanupStep env s j).2,
      e = Ev.updateTexImage ∨ (∃ t, e = Ev.discardBackTexture t) ∨
      e = Ev.clearSlot j := by
  intro e he
  unfold cleanupStep at he
  split at he
  · rcases List.mem_append.mp he with h1 | h2
    · rcases List.mem_append.mp h1 with ha | hb
      · unfold uteEvs at ha
        split at ha
        · rcases List.mem_singleton.mp ha with rfl
          exact Or.inl rfl
        · cases ha
      · unfold discardEvs at hb
        split at hb
        · split at hb
          · rcases List.mem_singleton.mp hb with rfl
            exact Or.inr (Or.inl ⟨_, rfl⟩)
          · cases hb
        · cases hb
    · rcases List.mem_singleton.mp h2 with rfl
      exact Or.inr (Or.inr rfl)
  · cases he

theorem cleanupLoop_events_kinds (env : TileEnv) (n : Nat) :
    ∀ (k index : Nat) (s : QState), ∀ e ∈ (cleanupLoop env n k index s).2,
      e = Ev.updateTexImage ∨ (∃ t, e = Ev.discardBackTexture t) ∨
      ∃ i, e = Ev.clearSlot i := by
  intro k
  induction k with
  | zero => intro index s e he; cases he
  | succ k ih =>
    intro index s e he
    simp only [cleanupLoop] at he
    rcases List.mem_append.mp he with h1 | h2
    · rcases cleanupStep_events_kinds env s index e h1 with h | h | h
      · exact Or.inl h
      · exact Or.inr (Or.inl h)
      · exact Or.inr (Or.inr ⟨index, h⟩)
    · exact ih ((index + 1) % n) (cleanupStep env s index).1 e h2

theorem walkLoop_all_notSetPure (env : TileEnv) (n : Nat) :
    ∀ (k index : Nat) (fbo : Bool) (s : QState),
      (walkLoop env n k index fbo s).2.2.all notSetPure = true := by
  intro k
  induction k with
  | zero => intro _ _ _; rfl
  | succ k ih =>
    intro index fbo s
    simp only [walkLoop, List.all_append]
    rw [Bool.and_eq_true]
    constructor
    · rw [List.all_eq_true]
      intro e he
      rcases processSlot_events_kinds env s index fbo e he with
        rfl | rfl | rfl | rfl | rfl | rfl | ⟨t, rfl⟩ | ⟨t, rfl⟩ <;> rfl
    · exact ih ((index + 1) % n) (processSlot env s index fbo).2.1
        (processSlot env s index fbo).1

/-- A drain cycle is exactly the spec-shaped drain: discard resolution over
one full ring pass in arrival order, then the side queue in order, then the
ring walk over exactly `n` indices starting at the oldest unprocessed one. -/
theorem updateDirtyTiles_eq_drainSpec (env : TileEnv) (s : QState)
    (hn : 0 < s.transferQueueSize) : updateDirtyTiles env s = drainSpec env s := by
  have hstart : getNextTransferQueueIndex s < s.transferQueueSize := Nat.mod_lt _ hn
  have e1 : cleanupPendingDiscard env s = cleanupFold env (drainSpecIdxs s) s := by
    unfold cleanupPendingDiscard drainSpecIdxs
    exact cleanupLoop_eq_fold env _ _ _ s hstart
  have e2 : midState env s = drainSpecMid env s := by
    unfold midState drainSpecMid
    rw [e1]
  have hm := midState_frame env s
  have hstart2 : getNextTransferQueueIndex (midState env s) <
      (midState env s).transferQueueSize := by
    unfold getNextTransferQueueIndex
    rw [hm.1]
    exact Nat.mod_lt _ hn
  have hidxs : walkIndexList (midState env s).transferQueueSize
      (getNextTransferQueueIndex (midState env s)) (midState env s).transferQueueSize =
      drainSpecIdxs s := by
    unfold drainSpecIdxs getNextTransferQueueIndex
    rw [hm.1, hm.2.1]
  have e3 : walkResult env s =
      processFold env (drainSpecIdxs s) false (drainSpecMid env s) := by
    unfold walkResult
    rw [walkLoop_eq_fold env _ _ _ false _ hstart2, hidxs, e2]
  have esz : (walkResult env s).1.transferQueueSize = s.transferQueueSize :=
    (walkLoop_frame env _ _ _ false _).1.trans hm.1
  rw [updateDirtyTiles_decomp, drainSpec, ← e1, ← e3, esz]

/-- Environment for the claim-9 counterexample: tile 5's back texture is
texture 50; tile 0 has none. -/
def envSide50 : TileEnv :=
  { backTexture := fun t => if t = 5 then some 50 else none
    frontTexture := fun _ => none
    owner := fun _ => none }

/-- Queue state with ring slot 0 pending discard and one live side-queue
entry, reached by enqueue, shutdown marking, then a uniform enqueue. -/
def stateDiscardPlusSide : QState :=
  addItemInPureColorQueue envSide50 { baseTile := 5, pureColor := 3 }
    (setPendingDiscard (addItemInTransferQueue envSide50 { baseTile := 0 }
      .GpuUpload (mkTransferQueue true))).1

/-- C9, counterexample: in a drain over `stateDiscardPlusSide`, ring slot 0 is
examined and processed first — its shared-surface advance (`updateTexImage`)
and its clearing (`clearSlot 0`) — and only then are the side-queue entries
processed (`setPureColor 50`).  Refutes "side-queue entries are all processed
before any ring slot is examined": discard resolution walks the ring before
the side queue. -/
theorem updateDirtyTiles_claim9_counterexample :
    (getSlot stateDiscardPlusSide 0).status = .pendingDiscard ∧
    stateDiscardPlusSide.pureColorTileQueue.length = 1 ∧
    (updateDirtyTiles envSide50 stateDiscardPlusSide).2 =
      [Ev.updateTexImage, Ev.clearSlot 0, Ev.setPureColor 50,
       Ev.transferComplete 50, Ev.signalCond] := by
  refine ⟨by decide, by decide, by decide⟩

/-- C9, amended: a drain cycle is the spec-shaped sequence — pending-discard
resolution over one full ring pass first, then every side-queue entry in
order, then the ring walk for exactly `n` iterations starting at the oldest
unprocessed index (write index + 1 mod `n`) so `pendingBlit` slots are
processed in arrival order; the side queue is left empty regardless of
per-entry outcome, and no upload work (texture requirement, bitmap upload,
blit, GL save) ever precedes a side-queue write — only discard resolution
does. -/
theorem updateDirtyTiles_claim9 (env : TileEnv) (s : QState)
    (hn : 0 < s.transferQueueSize) :
    updateDirtyTiles env s = drainSpec env s ∧
    (updateDirtyTiles env s).1.pureColorTileQueue = [] ∧
    (∀ (l1 : List Ev) (t : Nat) (l2 : List Ev),
      (updateDirtyTiles env s).2 = l1 ++ Ev.setPureColor t :: l2 →
      ∀ e ∈ l1, isUploadWrite e = false) := by
  refine ⟨updateDirtyTiles_eq_drainSpec env s hn,
    (updateDirtyTiles_frame env s).2.2.2.2.2.2.1, ?_⟩
  intro l1 t l2 heq e he
  refine noSideAfterWrite_spec l1 (updateDirtyTiles env s).2 t l2 ?_ heq e he
  rw [updateDirtyTiles_decomp]
  simp only [List.append_assoc]
  apply noSideAfterWrite_append_left
  · intro e' he'
    rcases cleanupLoop_events_kinds env s.transferQueueSize s.transferQueueSize
      (getNextTransferQueueIndex s) s e' he' with rfl | ⟨t', rfl⟩ | ⟨i', rfl⟩ <;> rfl
  apply noSideAfterWrite_append_left
  · intro e' he'
    rcases List.mem_flatten.mp he' with ⟨evs, hevs, hin⟩
    rcases List.mem_map.mp hevs with ⟨d, _, rfl⟩
    rcases pureColorStep_mem env d _ hin with ⟨t', rfl⟩ | ⟨t', rfl⟩ <;> rfl
  apply noSideAfterWrite_of_all_notSetPure
  simp only [List.all_append]
  rw [Bool.and_eq_true, Bool.and_eq_true]
  refine ⟨?_, ?_, rfl⟩
  · show (walkResult env s).2.2.all notSetPure = true
    unfold walkResult
    exact walkLoop_all_notSetPure env _ _ _ false _
  · by_cases hf : (walkResult env s).2.1 <;> simp [hf, notSetPure]

/-- Closed instance of `updateDirtyTiles_claim9`: the drain of the
counterexample state is the spec-shaped drain. -/
theorem updateDirtyTiles_claim9_witness :
    updateDirtyTiles envSide50 stateDiscardPlusSide =
      drainSpec envSide50 stateDiscardPlusSide :=
  (updateDirtyTiles_claim9 envSide50 stateDiscardPlusSide (by decide)).1

/-! ### The capacity invariant (claim 3) -/

/-- Number of ring slots whose status is `pendingBlit` or `pendingDiscard`. -/
def pendingCount (s : QState) : Nat :=
  (List.range s.transferQueueSize).countP fun i =>
    decide ((getSlot s i).status ≠ .emptyItem)

/-- Distance of slot `j` behind the write index, going backwards around the
ring: 0 for the newest written slot, `n - 1` for the slot right after it. -/
def distIdx (s : QState) (j : Nat) : Nat :=
  (s.transferQueueIndex + s.transferQueueSize - j) % s.transferQueueSize

/-- Inductive invariant: well-formed ring, the tracked empty count plus the
pending count equals the capacity, and the non-empty slots are exactly the
`n - emptyItemCount` slots ending at the write index. -/
def Inv (s : QState) : Prop :=
  s.transferQueue.length = s.transferQueueSize ∧
  s.transferQueueIndex < s.transferQueueSize ∧
  s.emptyItemCount ≤ s.transferQueueSize ∧
  s.emptyItemCount + pendingCount s = s.transferQueueSize ∧
  ∀ j, j < s.transferQueueSize →
    ((getSlot s j).status ≠ .emptyItem ↔
      distIdx s j < s.transferQueueSize - s.emptyItemCount)

/-- The states reachable from a freshly constructed queue by enqueues that
respect the admission gate (nonzero empty count), drain cycles, and bulk
discard marking. -/
inductive Reach : QState → Prop
  | init (useMinimalMem : Bool) : Reach (mkTransferQueue useMinimalMem)
  | enqueue {s : QState} (env : TileEnv) (renderInfo : TileRenderInfo)
      (type : TextureUploadType) (h : Reach s) (hready : s.emptyItemCount ≠ 0) :
      Reach (addItemInTransferQueue env renderInfo type s)
  | drain {s : QState} (env : TileEnv) (h : Reach s) :
      Reach (updateDirtyTiles env s).1
  | discardAll {s : QState} (h : Reach s) : Reach (setPendingDiscard s).1

theorem mod_eq_pred_cases (n v : Nat) (hv : v < 2 * n) (hm : v % n = n - 1) :
    v = n - 1 ∨ v = 2 * n - 1 := by
  rcases Nat.eq_zero_or_pos n with hn | hn
  · omega
  by_cases hlt : v < n
  · left
    rw [Nat.mod_eq_of_lt hlt] at hm
    omega
  · right
    rw [Nat.mod_eq_sub_mod (by omega), Nat.mod_eq_of_lt (by omega)] at hm
    omega

theorem countP_flip : ∀ (l : List Nat), l.Nodup → ∀ (j0 : Nat), j0 ∈ l →
    ∀ (p q : Nat → Bool), (∀ j ∈ l, j ≠ j0 → p j = q j) →
    p j0 = false → q j0 = true → l.countP q = l.countP p + 1 := by
  intro l
  induction l with
  | nil => intro _ j0 hj; cases hj
  | cons a rest ih =>
    intro hnd j0 hj p q hpq hp hq
    rcases List.mem_cons.mp hj with rfl | hmem
    · have hrest : rest.countP q = rest.countP p := by
        apply List.countP_congr
        intro j hjr
        have hne : j ≠ j0 := by
          rintro rfl
          exact (List.nodup_cons.mp hnd).1 hjr
        rw [hpq j (List.mem_cons_of_mem _ hjr) hne]
      simp only [List.countP_cons, hp, hq, hrest]
      simp
    · have hne : a ≠ j0 := by
        rintro rfl
        exact (List.nodup_cons.mp hnd).1 hmem
      have hpa : p a = q a := hpq a (List.mem_cons_self ..) hne
      have hrec := ih (List.nodup_cons.mp hnd).2 j0 hmem p q
        (fun j hjr hne' => hpq j (List.mem_cons_of_mem _ hjr) hne') hp hq
      simp only [List.countP_cons, hrec, hpa]
      by_cases hqa : q a = true <;> simp [hqa]

theorem inv_init (useMinimalMem : Bool) : Inv (mkTransferQueue useMinimalMem) := by
  cases useMinimalMem <;>
    exact ⟨by decide, by decide, by decide, by decide, by decide⟩

theorem addItem_ring_length (env : TileEnv) (renderInfo : TileRenderInfo)
    (type : TextureUploadType) (s : QState) :
    (addItemInTransferQueue env renderInfo type s).transferQueue.length =
      s.transferQueue.length := by
  unfold addItemInTransferQueue
  by_cases hc : type = .CpuUpload <;> simp [hc, setSlot]

theorem inv_enqueue (env : TileEnv) (renderInfo : TileRenderInfo)
    (type : TextureUploadType) (s : QState) (hinv : Inv s)
    (hready : s.emptyItemCount ≠ 0) :
    Inv (addItemInTransferQueue env renderInfo type s) := by
  obtain ⟨hlen, hidx, hle, hcount, hdist⟩ := hinv
  have hn : 0 < s.transferQueueSize := Nat.lt_of_le_of_lt (Nat.zero_le _) hidx
  have hpost := addItemInTransferQueue_post env renderInfo type s hn hlen
  set s' := addItemInTransferQueue env renderInfo type s with hsprime
  have hidx'lt : (s.transferQueueIndex + 1) % s.transferQueueSize <
      s.transferQueueSize := Nat.mod_lt _ hn
  have hsz' : s'.transferQueueSize = s.transferQueueSize := rfl
  have hix' : s'.transferQueueIndex =
      (s.transferQueueIndex + 1) % s.transferQueueSize := hpost.2.2.2.2.1
  have hcnt' : s'.emptyItemCount = s.emptyItemCount - 1 := hpost.2.2.2.2.2.1
  have hframe := hpost.2.2.2.2.2.2
  have hdist_idx' : distIdx s ((s.transferQueueIndex + 1) % s.transferQueueSize) =
      s.transferQueueSize - 1 := by
    unfold distIdx
    by_cases hcase : s.transferQueueIndex + 1 < s.transferQueueSize
    · rw [Nat.mod_eq_of_lt hcase]
      have h2 : s.transferQueueIndex + s.transferQueueSize -
          (s.transferQueueIndex + 1) = s.transferQueueSize - 1 := by omega
      rw [h2, Nat.mod_eq_of_lt (by omega)]
    · have ha1 : s.transferQueueIndex + 1 = s.transferQueueSize := by omega
      rw [ha1, Nat.mod_self]
      have h2 : s.transferQueueIndex + s.transferQueueSize - 0 =
          s.transferQueueIndex + s.transferQueueSize := by omega
      rw [h2, Nat.mod_eq_sub_mod (by omega), Nat.mod_eq_of_lt (by omega)]
      omega
  have hslot_empty : (getSlot s ((s.transferQueueIndex + 1) %
      s.transferQueueSize)).status = .emptyItem := by
    by_contra hne
    have hcontra := (hdist _ hidx'lt).mp hne
    rw [hdist_idx'] at hcontra
    omega
  have hpc : pendingCount s' = pendingCount s + 1 := by
    show (List.range s.transferQueueSize).countP _ =
      (List.range s.transferQueueSize).countP _ + 1
    apply countP_flip (List.range s.transferQueueSize)
      (List.nodup_range s.transferQueueSize) _ (List.mem_range.mpr hidx'lt)
    · intro j _ hne
      rw [hframe j hne]
    · simp [hslot_empty]
    · simp [hpost.1]
  refine ⟨?_, ?_, ?_, ?_, ?_⟩
  · show s'.transferQueue.length = s'.transferQueueSize
    rw [hsprime, addItem_ring_length]
    exact hlen
  · rw [hix', hsz']
    exact hidx'lt
  · rw [hcnt', hsz']
    omega
  · rw [hcnt', hsz', hpc]
    omega
  · intro j hj
    rw [hsz'] at hj
    have hk : s'.transferQueueSize - s'.emptyItemCount =
        (s.transferQueueSize - s.emptyItemCount) + 1 := by
      rw [hcnt', hsz']
      omega
    by_cases hje : j = (s.transferQueueIndex + 1) % s.transferQueueSize
    · subst hje
      have hL : (getSlot s' ((s.transferQueueIndex + 1) %
          s.transferQueueSize)).status ≠ .emptyItem := by
        rw [hpost.1]
        simp
      have hd0 : distIdx s' ((s.transferQueueIndex + 1) % s.transferQueueSize) = 0 := by
        unfold distIdx
        rw [hix', hsz']
        have hcancel : (s.transferQueueIndex + 1) % s.transferQueueSize +
            s.transferQueueSize - (s.transferQueueIndex + 1) % s.transferQueueSize =
            s.transferQueueSize := by omega
        rw [hcancel, Nat.mod_self]
      simp only [hL, hd0, hk, ne_eq, not_false_eq_true, true_iff]
      omega
    · have hslot : getSlot s' j = getSlot s j := hframe j hje
      have hdlt : distIdx s j < s.transferQueueSize := Nat.mod_lt _ hn
      have hn2 : 2 ≤ s.transferQueueSize := by omega
      have hdne : distIdx s j ≠ s.transferQueueSize - 1 := by
        intro hcontra
        unfold distIdx at hcontra
        rcases mod_eq_pred_cases s.transferQueueSize
          (s.transferQueueIndex + s.transferQueueSize - j) (by omega) hcontra with
          hv | hv
        · have hja : j = s.transferQueueIndex + 1 := by omega
          have hlt : s.transferQueueIndex + 1 < s.transferQueueSize := by omega
          rw [Nat.mod_eq_of_lt hlt] at hje
          omega
        · have hj0 : j = 0 ∧ s.transferQueueIndex = s.transferQueueSize - 1 := by
            omega
          have ha1 : s.transferQueueIndex + 1 = s.transferQueueSize := by omega
          rw [ha1, Nat.mod_self] at hje
          omega
      have hstep : distIdx s' j = distIdx s j + 1 := by
        unfold distIdx
        rw [hix', hsz']
        have e1 : (s.transferQueueIndex + 1) % s.transferQueueSize +
            s.transferQueueSize - j =
            (s.transferQueueIndex + 1) % s.transferQueueSize +
            (s.transferQueueSize - j) := by omega
        rw [e1, Nat.mod_add_mod]
        have e2 : s.transferQueueIndex + 1 + (s.transferQueueSize - j) =
            (s.transferQueueIndex + s.transferQueueSize - j) + 1 := by omega
        rw [e2]
        have e3 : (s.transferQueueIndex + s.transferQueueSize - j + 1) %
            s.transferQueueSize =
            ((s.transferQueueIndex + s.transferQueueSize - j) %
              s.transferQueueSize + 1 % s.transferQueueSize) %
              s.transferQueueSize := Nat.add_mod ..
        rw [e3, Nat.mod_eq_of_lt (by omega : 1 < s.transferQueueSize)]
        have e4 : (s.transferQueueIndex + s.transferQueueSize - j) %
            s.transferQueueSize + 1 < s.transferQueueSize := by
          have hd : (s.transferQueueIndex + s.transferQueueSize - j) %
              s.transferQueueSize = distIdx s j := rfl
          omega
        rw [Nat.mod_eq_of_lt e4]
      rw [hslot, hstep, hk, hdist j hj]
      omega

theorem inv_discardAll (s : QState) (hinv : Inv s) : Inv (setPendingDiscard s).1 := by
  obtain ⟨hlen, hidx, hle, hcount, hdist⟩ := hinv
  have hslot := setPendingDiscard_slot_map s
  have hstatus : ∀ j, ((getSlot (setPendingDiscard s).1 j).status ≠ .emptyItem ↔
      (getSlot s j).status ≠ .emptyItem) := by
    intro j
    rw [hslot j]
    by_cases hb : (getSlot s j).status = .pendingBlit <;> simp [hb]
  have hpc : pendingCount (setPendingDiscard s).1 = pendingCount s := by
    show (List.range s.transferQueueSize).countP _ =
      (List.range s.transferQueueSize).countP _
    apply List.countP_congr
    intro j _
    have := hstatus j
    by_cases hj : (getSlot s j).status = .emptyItem <;> simp [hj] at this ⊢ <;>
      simp [this]
  refine ⟨?_, hidx, hle, ?_, ?_⟩
  · show (s.transferQueue.map _).length = s.transferQueueSize
    rw [List.length_map]
    exact hlen
  · rw [hpc]
    exact hcount
  · intro j hj
    rw [hstatus j]
    exact hdist j hj

theorem inv_drain (env : TileEnv) (s : QState) (hinv : Inv s) :
    Inv (updateDirtyTiles env s).1 := by
  obtain ⟨hlen, hidx, hle, hcount, hdist⟩ := hinv
  have hf := updateDirtyTiles_frame env s
  have hempty : ∀ j, j < s.transferQueueSize →
      (getSlot (updateDirtyTiles env s).1 j).status = .emptyItem :=
    fun j hj => updateDirtyTiles_slot_empty env s j hj
  have hpc : pendingCount (updateDirtyTiles env s).1 = 0 := by
    unfold pendingCount
    rw [hf.1]
    rw [List.countP_eq_zero]
    intro j hj
    rw [List.mem_range] at hj
    simp [hempty j hj]
  refine ⟨hf.2.2.2.2.2.2.2.trans (hlen.trans hf.1.symm), ?_, ?_, ?_, ?_⟩
  · rw [hf.2.1, hf.1]
    exact hidx
  · rw [hf.2.2.1, hf.1]
  · rw [hf.2.2.1, hf.1, hpc]
    omega
  · intro j hj
    rw [hf.1] at hj
    rw [hf.2.2.1, hf.1]
    simp [hempty j hj]

theorem inv_reach (s : QState) (h : Reach s) : Inv s := by
  induction h with
  | init b => exact inv_init b
  | enqueue env renderInfo type _ hready ih => exact inv_enqueue env renderInfo type _ ih hready
  | drain env _ ih => exact inv_drain env _ ih
  | discardAll _ ih => exact inv_discardAll _ ih

/-- C3, counterexample: enqueue one item into the minimal-capacity queue
(under the admission gate), mark everything for discard, then run a
standalone discard resolution (`cleanupPendingDiscard`, as `emptyQueue` does):
the slot returns to Empty but `m_emptyItemCount` is not restored, so the
tracked empty count plus the pending count is 0, not the capacity 1. -/
theorem transferQueue_claim3_counterexample :
    (cleanupPendingDiscard envNoBack (setPendingDiscard
      (addItemInTransferQueue envNoBack { baseTile := 0 } .GpuUpload
        (mkTransferQueue true))).1).1.emptyItemCount +
      pendingCount (cleanupPendingDiscard envNoBack (setPendingDiscard
        (addItemInTransferQueue envNoBack { baseTile := 0 } .GpuUpload
          (mkTransferQueue true))).1).1 = 0 ∧
    (cleanupPendingDiscard envNoBack (setPendingDiscard
      (addItemInTransferQueue envNoBack { baseTile := 0 } .GpuUpload
        (mkTransferQueue true))).1).1.transferQueueSize = 1 ∧
    (mkTransferQueue true).emptyItemCount ≠ 0 := by
  refine ⟨by decide, by decide, by decide⟩

/-- C3, amended: for every sequence of gate-respecting enqueues
(`addItemInTransferQueue` performed only with a nonzero empty count), drain
cycles (`updateDirtyTiles`), and discard markings (`setPendingDiscard`) from
the freshly constructed queue, the tracked empty-slot count plus the number
of ring slots in `pendingBlit` or `pendingDiscard` equals the ring capacity
after every operation.  A standalone `cleanupPendingDiscard` (outside a drain
cycle) breaks the equality until the end of the next drain, which restores
the count. -/
theorem transferQueue_claim3 (s : QState) (h : Reach s) :
    s.emptyItemCount + pendingCount s = s.transferQueueSize :=
  (inv_reach s h).2.2.2.1

/-- Closed instance of `transferQueue_claim3`: after a gate-respecting
enqueue into the fresh minimal queue, 0 empty + 1 pending = capacity 1. -/
theorem transferQueue_claim3_witness :
    (addItemInTransferQueue envNoBack { baseTile := 0 } .GpuUpload
      (mkTransferQueue true)).emptyItemCount +
      pendingCount (addItemInTransferQueue envNoBack { baseTile := 0 } .GpuUpload
        (mkTransferQueue true)) =
      (addItemInTransferQueue envNoBack { baseTile := 0 } .GpuUpload
        (mkTransferQueue true)).transferQueueSize :=
  transferQueue_claim3 _
    (Reach.enqueue envNoBack { baseTile := 0 } .GpuUpload (Reach.init true)
      (by decide))

/-- A slot whose destination is tile 0 and whose expected texture reference is
null — exactly what `addItemCommon` records when the tile has no back texture
at enqueue time. -/
def slotNullTexture : TileTransferData :=
  { status := .pendingBlit, savedTilePtr := some 0, savedTileTexturePtr := none }

/-- C1, counterexample: for `slotNullTexture` under `envNoBack` the destination
is non-null and the destination's current back texture equals the slot's
expected texture reference (both are null), so the claim demands `false`, yet
`checkObsolete` returns `true`. -/
theorem checkObsolete_claim1_counterexample :
    checkObsolete envNoBack slotNullTexture = true ∧
    slotNullTexture.savedTilePtr = some 0 ∧
    envNoBack.backTexture 0 = slotNullTexture.savedTileTexturePtr ∧
    checkObsoleteSpec envNoBack slotNullTexture = false := by
  refine ⟨rfl, rfl, rfl, rfl⟩

/-- C1, amended: `checkObsolete` returns `false` exactly when the destination
reference is non-null, the destination's current back texture is non-null, and
it equals the slot's expected texture reference; it returns `true` iff the
destination is null, or its back texture is null, or the two references differ. -/
theorem checkObsolete_false_iff (env : TileEnv) (data : TileTransferData) :
    checkObsolete env data = false ↔
      ∃ tile bt, data.savedTilePtr = some tile ∧ env.backTexture tile = some bt ∧
        data.savedTileTexturePtr = some bt := by
  unfold checkObsolete
  cases hTile : data.savedTilePtr with
  | none => simp [hTile]
  | some tile =>
    cases hBt : env.backTexture tile with
    | none => simp [hBt, hTile]
    | some bt =>
      simp only [hBt, hTile, decide_not, Bool.not_eq_false', decide_eq_true_eq]
      constructor
      · intro h
        exact ⟨tile, bt, rfl, hBt, h.symm⟩
      · rintro ⟨t, b, ht, hb, hsaved⟩
        cases ht
        rw [hBt] at hb
        cases hb
        exact hsaved.symm

end TQ
